import Mathlib

/-!
Shallow embedding of the local reactive data store of the
EDGEMAKERS-Multisolutions repository (`src/lib/database.ts`, data model in
`src/lib/data.ts`), together with theorems settling the specification claims
about it.

Modelling conventions:
* ISO-8601 timestamp strings are abstracted to their epoch-millisecond value
  (`Int`); the source always compares timestamps through
  `new Date(s).getTime()`, which is strictly monotone in that value.
* Optional string fields that the source only tests for JS truthiness
  (`email?`, `whatsapp?`, `password`) are modelled as `String`, with `""`
  playing the role of a falsy/absent value.
* A JS `Map` is modelled as an insertion-ordered association list: `set` on an
  existing key updates the value in place (keeping its position), otherwise
  appends; `values()` is the list of values in that order.
* `ActivityLog.metadata` (`Record<string, any>`) is omitted: no modelled
  operation ever constructs or reads it.
-/

/-- `ImagePlaceholder` from `src/lib/placeholder-images.ts`. -/
structure ImagePlaceholder where
  id : String
  description : String
  imageUrl : String
  imageHint : String
deriving DecidableEq, Repr

/-- `Service` from `src/lib/data.ts` (`category` is the `ServiceCategory`
string union; `active?` is optional). -/
structure Service where
  id : String
  title : String
  description : String
  image : ImagePlaceholder
  icon : String
  category : String
  googleFormUrl : String
  active : Option Bool
deriving DecidableEq, Repr

/-- `TeamMember` from `src/lib/data.ts`. -/
structure TeamMember where
  id : String
  name : String
  role : String
  bio : String
  image : ImagePlaceholder
  order : Option Int
  active : Option Bool
deriving DecidableEq, Repr

/-- `Testimonial` from `src/lib/data.ts`. -/
structure Testimonial where
  id : String
  quote : String
  author : String
  company : String
  active : Option Bool
deriving DecidableEq, Repr

/-- `Job` from `src/lib/data.ts`. -/
structure Job where
  id : String
  title : String
  department : String
  location : String
  type : String
  description : String
  requirements : List String
  experience : Option String
  salary : Option String
  active : Option Bool
deriving DecidableEq, Repr

/-- `User` from `src/lib/data.ts` (`createdAt` is an ISO string the store
never interprets, kept as `String`; `password` is tested for truthiness,
with `""` the falsy case). -/
structure User where
  id : String
  email : String
  name : String
  password : String
  createdAt : String
  isAdmin : Bool
deriving DecidableEq, Repr

/-- `Contact` from `src/lib/data.ts` (`submittedAt` in epoch ms). -/
structure Contact where
  id : String
  name : String
  email : String
  phone : String
  service : String
  message : String
  submittedAt : Int
  status : String
deriving DecidableEq, Repr

/-- `NewsletterSubscriber` from `src/lib/data.ts` (`email?`/`whatsapp?`
optional strings, `""` = absent; `subscribedAt` in epoch ms). -/
structure NewsletterSubscriber where
  id : String
  email : String
  whatsapp : String
  subscribedAt : Int
  status : String
deriving DecidableEq, Repr

/-- `JobApplication` from `src/lib/data.ts` (`submittedAt` in epoch ms). -/
structure JobApplication where
  id : String
  name : String
  email : String
  phone : String
  position : String
  experience : String
  message : String
  submittedAt : Int
  status : String
deriving DecidableEq, Repr

/-- `ActivityLog` from `src/lib/data.ts`. `action` and `entityType` are the
string unions `ActivityAction` / `EntityType`; `timestamp` in epoch ms;
`details?` optional; `metadata?` omitted (never constructed or read by the
modelled operations). -/
structure ActivityLog where
  id : String
  action : String
  entityType : String
  entityId : String
  entityName : String
  user : String
  timestamp : Int
  details : Option String
deriving DecidableEq, Repr

/-- The content of the store under the `DB_KEYS` of `database.ts`: one list
per collection plus the activity log (the `SETTINGS` key is never touched by
the modelled operations). -/
structure DBState where
  services : List Service
  team : List TeamMember
  testimonials : List Testimonial
  jobs : List Job
  users : List User
  contacts : List Contact
  newsletter : List NewsletterSubscriber
  applications : List JobApplication
  activityLogs : List ActivityLog
deriving DecidableEq, Repr

/-- Storage key constants (`DB_KEYS` in `database.ts`). -/
def DB_KEYS_SERVICES : String := "edgemakers_db_services"
def DB_KEYS_TEAM : String := "edgemakers_db_team"
def DB_KEYS_TESTIMONIALS : String := "edgemakers_db_testimonials"
def DB_KEYS_JOBS : String := "edgemakers_db_jobs"
def DB_KEYS_USERS : String := "edgemakers_db_users"
def DB_KEYS_CONTACTS : String := "edgemakers_db_contacts"
def DB_KEYS_NEWSLETTER : String := "edgemakers_db_newsletter"
def DB_KEYS_APPLICATIONS : String := "edgemakers_db_applications"
def DB_KEYS_ACTIVITY_LOGS : String := "edgemakers_db_activity_logs"

/-! ## JS `Map` model (insertion-ordered association list) -/

namespace JsMap

/-- `Map.set`: update in place if the key exists, else append. -/
def set (m : List (String × α)) (k : String) (v : α) : List (String × α) :=
  if m.any (fun p => p.1 = k) then
    m.map (fun p => if p.1 = k then (k, v) else p)
  else
    m ++ [(k, v)]

/-- `Map.get`: the value stored under `k`, if any. -/
def get (m : List (String × α)) (k : String) : Option α :=
  (m.find? (fun p => p.1 = k)).map (fun p => p.2)

/-- `Map.has`. -/
def has (m : List (String × α)) (k : String) : Bool :=
  m.any (fun p => p.1 = k)

/-- `Array.from(map.values())`: values in insertion order. -/
def values (m : List (String × α)) : List α :=
  m.map (fun p => p.2)

end JsMap

/-! ## Activity log operations (`database.ts` lines 636-716) -/

/-- Result of `cleanupOldActivityLogs`: the resulting log list, the number of
removed entries (the source's return value), and whether the filtered list was
persisted and its topic emitted (the source does both only inside the
`filteredLogs.length < logs.length` branch). -/
structure SweepResult where
  logs : List ActivityLog
  removed : Nat
  persisted : Bool
deriving DecidableEq, Repr

/-- `Database.cleanupOldActivityLogs` (lines 659-680): drops every entry with
`new Date(log.timestamp) >= cutoffDate` false, where
`cutoffDate = Date.now() - daysToKeep * 24 * 60 * 60 * 1000`; persists and
emits only if at least one entry was removed. -/
def cleanupOldActivityLogs (now : Int) (daysToKeep : Int) (logs : List ActivityLog) :
    SweepResult :=
  let cutoffDate := now - daysToKeep * 24 * 60 * 60 * 1000
  let filteredLogs := logs.filter (fun log => cutoffDate ≤ log.timestamp)
  if filteredLogs.length < logs.length then
    ⟨filteredLogs, logs.length - filteredLogs.length, true⟩
  else
    ⟨logs, 0, false⟩

/-- State plus effect traces of one store operation: keys written to host
storage (in order) and topics emitted on the event bus (in order). -/
structure OpResult where
  state : DBState
  writes : List String
  emits : List String
deriving Repr

/-- `Database.addActivityLog` (lines 641-657): assigns the fresh id `rid` and
timestamp `now`, appends, persists, emits `activityLogs`, then immediately
runs the retention sweep (which may persist and emit once more). The quota
failures its `try`/`catch` swallows are outside this pure model. -/
def addActivityLog (st : DBState) (action entityType entityId entityName : String)
    (details : Option String) (user : String) (now : Int) (rid : String) : OpResult :=
  let newLog : ActivityLog :=
    ⟨rid, action, entityType, entityId, entityName, user, now, details⟩
  let logs := st.activityLogs ++ [newLog]
  let sweep := cleanupOldActivityLogs now 30 logs
  if sweep.persisted then
    ⟨{ st with activityLogs := sweep.logs },
      [DB_KEYS_ACTIVITY_LOGS, DB_KEYS_ACTIVITY_LOGS], ["activityLogs", "activityLogs"]⟩
  else
    ⟨{ st with activityLogs := logs }, [DB_KEYS_ACTIVITY_LOGS], ["activityLogs"]⟩

/-- `Database.logActivity` (lines 695-716): looks up the current user and
delegates to `addActivityLog`. `getCurrentUser` reads the raw
`edgemakers_user` key, which lives outside the modelled collections, so its
result is the parameter `user`. -/
def logActivity (st : DBState) (action entityType entityId entityName : String)
    (details : Option String) (user : String) (now : Int) (rid : String) : OpResult :=
  addActivityLog st action entityType entityId entityName details user now rid

/-- `Database.setServices` (lines 399-402): persist the list and emit the
`services` topic. -/
def setServices (st : DBState) (services : List Service) : OpResult :=
  ⟨{ st with services := services }, [DB_KEYS_SERVICES], ["services"]⟩

/-- Sequential composition of two effectful steps. -/
def OpResult.andThen (r : OpResult) (f : DBState → OpResult) : OpResult :=
  let r2 := f r.state
  ⟨r2.state, r.writes ++ r2.writes, r.emits ++ r2.emits⟩

/-- `Database.deleteService` (lines 426-433): looks the record up for its
title (falling back to `"Unknown Service"`), filters it out, persists via
`setServices`, and logs a `"delete"` activity. -/
def deleteService (st : DBState) (id : String) (user : String) (now : Int)
    (rid : String) : OpResult :=
  let services := st.services
  let service := services.find? (fun s => s.id = id)
  let serviceName := (service.map (fun s => s.title)).getD "Unknown Service"
  let filtered := services.filter (fun s => ¬ s.id = id)
  (setServices st filtered).andThen (fun st1 =>
    logActivity st1 "delete" "service" id serviceName none user now rid)

/-! ## Helper lemmas about the retention sweep and `addActivityLog` -/

/-- The sweep always ends with the retained entries, and persists exactly when
that list is shorter than the input. -/
theorem cleanupOldActivityLogs_spec (now daysToKeep : Int) (logs : List ActivityLog) :
    (cleanupOldActivityLogs now daysToKeep logs).logs =
      logs.filter (fun log => now - daysToKeep * 24 * 60 * 60 * 1000 ≤ log.timestamp) ∧
    ((cleanupOldActivityLogs now daysToKeep logs).persisted = true ↔
      (logs.filter
        (fun log => now - daysToKeep * 24 * 60 * 60 * 1000 ≤ log.timestamp)).length <
        logs.length) := by
  simp only [cleanupOldActivityLogs]
  split
  next h => exact ⟨rfl, iff_of_true rfl h⟩
  next h =>
    have hle := List.length_filter_le
      (fun log => decide (now - daysToKeep * 24 * 60 * 60 * 1000 ≤ log.timestamp)) logs
    have hlen : (logs.filter
        (fun log => decide (now - daysToKeep * 24 * 60 * 60 * 1000 ≤ log.timestamp))).length =
        logs.length := by omega
    have heq := (List.filter_sublist logs).eq_of_length hlen
    exact ⟨heq.symm, iff_of_false (by simp) h⟩

/-- `addActivityLog` leaves every collection untouched, replaces the activity
log by its retained prefix plus the fresh entry, and only ever writes/emits
the activity-log key/topic. -/
theorem addActivityLog_spec (st : DBState) (action entityType entityId entityName : String)
    (details : Option String) (user : String) (now : Int) (rid : String) :
    (addActivityLog st action entityType entityId entityName details user now rid).state =
      { st with activityLogs :=
          st.activityLogs.filter (fun log => now - 30 * 24 * 60 * 60 * 1000 ≤ log.timestamp)
            ++ [⟨rid, action, entityType, entityId, entityName, user, now, details⟩] } ∧
    (∀ k ∈ (addActivityLog st action entityType entityId entityName details user now rid).writes,
      k = DB_KEYS_ACTIVITY_LOGS) ∧
    (∀ t ∈ (addActivityLog st action entityType entityId entityName details user now rid).emits,
      t = "activityLogs") := by
  have hkeep : (fun log : ActivityLog =>
      decide (now - 30 * 24 * 60 * 60 * 1000 ≤ log.timestamp))
      ⟨rid, action, entityType, entityId, entityName, user, now, details⟩ = true := by
    simp only [decide_eq_true_eq]
    omega
  have hc := cleanupOldActivityLogs_spec now 30
    (st.activityLogs ++ [⟨rid, action, entityType, entityId, entityName, user, now, details⟩])
  have hlogs := hc.1
  rw [List.filter_append] at hlogs
  simp only [List.filter_cons, List.filter_nil, hkeep, if_true] at hlogs
  have hcond := hc.2
  rw [List.filter_append] at hcond
  simp only [List.filter_cons, List.filter_nil, hkeep, if_true, List.length_append,
    List.length_cons, List.length_nil] at hcond
  simp only [addActivityLog]
  split
  next hp =>
    refine ⟨?_, ?_, ?_⟩
    · rw [hlogs]
    · intro k hk
      simpa using hk
    · intro t ht
      simpa using ht
  next hp =>
    have hnotlt := (not_iff_not.mpr hcond).mp (by simpa using hp)
    have hle := List.length_filter_le
      (fun log => decide (now - 30 * 24 * 60 * 60 * 1000 ≤ log.timestamp)) st.activityLogs
    have hlen : (st.activityLogs.filter
        (fun log => decide (now - 30 * 24 * 60 * 60 * 1000 ≤ log.timestamp))).length =
        st.activityLogs.length := by omega
    have heq := (List.filter_sublist st.activityLogs).eq_of_length hlen
    refine ⟨?_, ?_, ?_⟩
    · rw [heq]
    · intro k hk
      simpa using hk
    · intro t ht
      simpa using ht


/-- No key other than the activity-log key is written by `addActivityLog`. -/
theorem addActivityLog_writes_count_zero (st : DBState)
    (action entityType entityId entityName : String) (details : Option String)
    (user : String) (now : Int) (rid : String) (k : String)
    (hk : ¬ k = DB_KEYS_ACTIVITY_LOGS) :
    ((addActivityLog st action entityType entityId entityName details user now rid).writes).count
      k = 0 := by
  apply List.count_eq_zero.mpr
  intro hmem
  exact hk ((addActivityLog_spec st action entityType entityId entityName
    details user now rid).2.1 _ hmem)

/-- No topic other than `activityLogs` is emitted by `addActivityLog`. -/
theorem addActivityLog_emits_count_zero (st : DBState)
    (action entityType entityId entityName : String) (details : Option String)
    (user : String) (now : Int) (rid : String) (t : String)
    (ht : ¬ t = "activityLogs") :
    ((addActivityLog st action entityType entityId entityName details user now rid).emits).count
      t = 0 := by
  apply List.count_eq_zero.mpr
  intro hmem
  exact ht ((addActivityLog_spec st action entityType entityId entityName
    details user now rid).2.2 _ hmem)

/-! ## Theorems for C9 and C10 -/

/-- C9: for every store state and every id not present in the services
collection, `deleteService` leaves the stored services collection unchanged.
(The operation is a total function of the model, so it raises no exception;
the quota path of `setItem` is settled separately under C1.) -/
theorem deleteService_absent_id_noop (st : DBState) (id user : String) (now : Int)
    (rid : String) (h : ∀ s ∈ st.services, s.id ≠ id) :
    (deleteService st id user now rid).state.services = st.services := by
  have hf : st.services.filter (fun s => ¬ s.id = id) = st.services := by
    apply List.filter_eq_self.mpr
    intro s hs
    simpa using h s hs
  simp only [deleteService, OpResult.andThen, logActivity, setServices]
  rw [(addActivityLog_spec _ _ _ _ _ _ _ _ _).1]
  simpa using hf

/-- Witness for C9 at a concrete state. -/
theorem deleteService_absent_id_noop_witness :
    (deleteService
      ⟨[⟨"service-1", "House Keeping", "d", ⟨"i", "d", "u", "h"⟩, "ic", "Facility Management",
        "g", none⟩], [], [], [], [], [], [], [], []⟩
      "service-404" "Admin" 1000 "log-1").state.services =
      [⟨"service-1", "House Keeping", "d", ⟨"i", "d", "u", "h"⟩, "ic", "Facility Management",
        "g", none⟩] := by
  exact deleteService_absent_id_noop
    ⟨[⟨"service-1", "House Keeping", "d", ⟨"i", "d", "u", "h"⟩, "ic", "Facility Management",
      "g", none⟩], [], [], [], [], [], [], [], []⟩
    "service-404" "Admin" 1000 "log-1" (by decide)

/-- C10: deleting an absent id is not externally silent: the (unchanged)
services collection is still written once, the `services` topic is emitted
exactly once, and one `"delete"` activity-log entry with `entityName`
`"Unknown Service"` is appended (after the retention sweep over the older
entries). -/
theorem deleteService_absent_id_effects (st : DBState) (id user : String) (now : Int)
    (rid : String) (h : ∀ s ∈ st.services, s.id ≠ id) :
    (deleteService st id user now rid).state.services = st.services ∧
    (deleteService st id user now rid).writes.count DB_KEYS_SERVICES = 1 ∧
    (deleteService st id user now rid).emits.count "services" = 1 ∧
    (deleteService st id user now rid).state.activityLogs =
      st.activityLogs.filter (fun log => now - 30 * 24 * 60 * 60 * 1000 ≤ log.timestamp)
        ++ [⟨rid, "delete", "service", id, "Unknown Service", user, now, none⟩] := by
  have hfind : st.services.find? (fun s => s.id = id) = none := by
    apply List.find?_eq_none.mpr
    intro s hs
    simpa using h s hs
  have hf : st.services.filter (fun s => ¬ s.id = id) = st.services := by
    apply List.filter_eq_self.mpr
    intro s hs
    simpa using h s hs
  simp only [deleteService, OpResult.andThen, logActivity, setServices, hfind,
    Option.map_none', Option.getD_none]
  refine ⟨?_, ?_, ?_, ?_⟩
  · rw [(addActivityLog_spec _ _ _ _ _ _ _ _ _).1]
    simpa using hf
  · simp only [List.count_append, List.count_cons, List.count_nil]
    rw [addActivityLog_writes_count_zero _ _ _ _ _ _ _ _ _ _ (by decide)]
    simp
  · simp only [List.count_append, List.count_cons, List.count_nil]
    rw [addActivityLog_emits_count_zero _ _ _ _ _ _ _ _ _ _ (by decide)]
    simp
  · rw [(addActivityLog_spec _ _ _ _ _ _ _ _ _).1]

/-- Witness for C10 at a concrete state. -/
theorem deleteService_absent_id_effects_witness :
    (deleteService ⟨[], [], [], [], [], [], [], [],
        [⟨"log-0", "create", "service", "service-1", "S", "Admin", 500, none⟩]⟩
      "service-404" "Admin" 1000 "log-1").state.services = [] ∧
    (deleteService ⟨[], [], [], [], [], [], [], [],
        [⟨"log-0", "create", "service", "service-1", "S", "Admin", 500, none⟩]⟩
      "service-404" "Admin" 1000 "log-1").writes.count DB_KEYS_SERVICES = 1 ∧
    (deleteService ⟨[], [], [], [], [], [], [], [],
        [⟨"log-0", "create", "service", "service-1", "S", "Admin", 500, none⟩]⟩
      "service-404" "Admin" 1000 "log-1").emits.count "services" = 1 ∧
    (deleteService ⟨[], [], [], [], [], [], [], [],
        [⟨"log-0", "create", "service", "service-1", "S", "Admin", 500, none⟩]⟩
      "service-404" "Admin" 1000 "log-1").state.activityLogs =
      ([⟨"log-0", "create", "service", "service-1", "S", "Admin", 500, none⟩] :
          List ActivityLog).filter
          (fun log => 1000 - 30 * 24 * 60 * 60 * 1000 ≤ log.timestamp)
        ++ [⟨"log-1", "delete", "service", "service-404", "Unknown Service", "Admin",
          1000, none⟩] := by
  exact deleteService_absent_id_effects
    ⟨[], [], [], [], [], [], [], [],
      [⟨"log-0", "create", "service", "service-1", "S", "Admin", 500, none⟩]⟩
    "service-404" "Admin" 1000 "log-1" (by decide)

/-! ## Theorem for C6 -/

/-- C6: the retention sweep with the default 30-day window removes exactly the
entries more than 30 days old, keeps the rest (in particular an entry 29 days
old), ends with the filtered list, and persists/emits iff at least one entry
was removed. -/
theorem activityLog_retention_sweep (now : Int) (logs : List ActivityLog) :
    (∀ e ∈ logs, 30 * 24 * 60 * 60 * 1000 < now - e.timestamp →
      e ∉ (cleanupOldActivityLogs now 30 logs).logs) ∧
    (∀ e ∈ logs, now - e.timestamp ≤ 30 * 24 * 60 * 60 * 1000 →
      e ∈ (cleanupOldActivityLogs now 30 logs).logs) ∧
    (cleanupOldActivityLogs now 30 logs).logs =
      logs.filter (fun log => now - 30 * 24 * 60 * 60 * 1000 ≤ log.timestamp) ∧
    ((cleanupOldActivityLogs now 30 logs).persisted = true ↔
      ∃ e ∈ logs, 30 * 24 * 60 * 60 * 1000 < now - e.timestamp) := by
  have hc := cleanupOldActivityLogs_spec now 30 logs
  refine ⟨?_, ?_, hc.1, ?_⟩
  · intro e _ hold
    rw [hc.1]
    intro hmem
    have := (List.mem_filter.mp hmem).2
    simp only [decide_eq_true_eq] at this
    omega
  · intro e he hrecent
    rw [hc.1]
    refine List.mem_filter.mpr ⟨he, ?_⟩
    simp only [decide_eq_true_eq]
    omega
  · rw [hc.2]
    constructor
    · intro hlt
      by_contra hno
      push_neg at hno
      have hall : ∀ e ∈ logs,
          (fun log : ActivityLog =>
            decide (now - 30 * 24 * 60 * 60 * 1000 ≤ log.timestamp)) e = true := by
        intro e he
        simp only [decide_eq_true_eq]
        have := hno e he
        omega
      rw [List.filter_eq_self.mpr hall] at hlt
      omega
    · rintro ⟨e, he, hold⟩
      have hle := List.length_filter_le
        (fun log => decide (now - 30 * 24 * 60 * 60 * 1000 ≤ log.timestamp)) logs
      rcases lt_or_eq_of_le hle with hlt | heqlen
      · exact hlt
      · exfalso
        have heq := (List.filter_sublist logs).eq_of_length heqlen
        have hmem : e ∈ logs.filter
            (fun log => decide (now - 30 * 24 * 60 * 60 * 1000 ≤ log.timestamp)) := by
          rw [heq]
          exact he
        have := (List.mem_filter.mp hmem).2
        simp only [decide_eq_true_eq] at this
        omega

/-- Witness for C6: at `now = 0`, an entry 31 days old is swept, one 29 days
old is retained, and the sweep persists. -/
theorem activityLog_retention_sweep_witness :
    (⟨"l31", "create", "contact", "c1", "A", "System", -2678400000, none⟩ : ActivityLog) ∉
      (cleanupOldActivityLogs 0 30
        [⟨"l31", "create", "contact", "c1", "A", "System", -2678400000, none⟩,
         ⟨"l29", "create", "contact", "c2", "B", "System", -2505600000, none⟩]).logs ∧
    (⟨"l29", "create", "contact", "c2", "B", "System", -2505600000, none⟩ : ActivityLog) ∈
      (cleanupOldActivityLogs 0 30
        [⟨"l31", "create", "contact", "c1", "A", "System", -2678400000, none⟩,
         ⟨"l29", "create", "contact", "c2", "B", "System", -2505600000, none⟩]).logs ∧
    (cleanupOldActivityLogs 0 30
        [⟨"l31", "create", "contact", "c1", "A", "System", -2678400000, none⟩,
         ⟨"l29", "create", "contact", "c2", "B", "System", -2505600000, none⟩]).persisted =
      true := by
  have h := activityLog_retention_sweep 0
    [⟨"l31", "create", "contact", "c1", "A", "System", -2678400000, none⟩,
     ⟨"l29", "create", "contact", "c2", "B", "System", -2505600000, none⟩]
  refine ⟨h.1 _ (by simp) (by norm_num), h.2.1 _ (by simp) (by norm_num), ?_⟩
  exact h.2.2.2.mpr
    ⟨⟨"l31", "create", "contact", "c1", "A", "System", -2678400000, none⟩,
      by simp, by norm_num⟩

/-! ## Backup export and replace-import (`database.ts` lines 869-886, 1035-1108) -/

/-- `BACKUP_FORMAT_VERSION` constant of `database.ts`. -/
def BACKUP_FORMAT_VERSION : String := "1.0.0"

/-- `Partial<ExportData>` as consumed by the import routines: the nine stored
collections, each possibly absent. The snapshot metadata fields (`version`,
`appVersion`, `backupId`, `exportedAt`, `description`) are never read by
`importAll`/`importAllMerge` and are not part of this payload model. -/
structure ImportPayload where
  services : Option (List Service)
  team : Option (List TeamMember)
  testimonials : Option (List Testimonial)
  jobs : Option (List Job)
  users : Option (List User)
  contacts : Option (List Contact)
  newsletter : Option (List NewsletterSubscriber)
  applications : Option (List JobApplication)
  activityLogs : Option (List ActivityLog)
deriving Repr

/-- `Database.exportAll` (lines 869-886), projected onto the fields the import
routines read: every collection of the current state is present in the
snapshot verbatim (the metadata fields `version`, `appVersion`, `backupId`,
`exportedAt` are dropped, see `ImportPayload`). -/
def exportAll (st : DBState) : ImportPayload :=
  { services := some st.services
    team := some st.team
    testimonials := some st.testimonials
    jobs := some st.jobs
    users := some st.users
    contacts := some st.contacts
    newsletter := some st.newsletter
    applications := some st.applications
    activityLogs := some st.activityLogs }

/-- `Database.importAll` (lines 1035-1108), replace strategy: every collection
is set wholesale from the backup if present, else explicitly set to empty;
the routine finishes with `logActivity("import", "backup", "restore",
"Full Restore")`. Per-collection emits are elided in this content model;
`user`, `now`, `rid` stand for `getCurrentUser()`, `Date.now()` and the
generated log id. -/
def importAll (data : ImportPayload) (st : DBState) (user : String) (now : Int)
    (rid : String) : DBState :=
  let st := { st with services := data.services.getD [] }
  let st := { st with team := data.team.getD [] }
  let st := { st with testimonials := data.testimonials.getD [] }
  let st := { st with jobs := data.jobs.getD [] }
  let st := { st with users := data.users.getD [] }
  let st := { st with contacts := data.contacts.getD [] }
  let st := { st with newsletter := data.newsletter.getD [] }
  let st := { st with applications := data.applications.getD [] }
  let st := { st with activityLogs := data.activityLogs.getD [] }
  (logActivity st "import" "backup" "restore" "Full Restore" none user now rid).state

/-! ## Theorem for C3 -/

/-- C3: replace-import completeness. With an empty payload every stored
collection is emptied and the activity log holds exactly the one fresh
`"import"` entry; in general each of the eight collections equals exactly
what the backup provided (or `[]`), and every entry of the resulting activity
log comes from the backup or is the fresh import entry — nothing of the prior
state survives. -/
theorem importAll_replace_completeness (st : DBState) (d : ImportPayload)
    (user : String) (now : Int) (rid : String) :
    importAll ⟨none, none, none, none, none, none, none, none, none⟩ st user now rid =
      ⟨[], [], [], [], [], [], [], [],
        [⟨rid, "import", "backup", "restore", "Full Restore", user, now, none⟩]⟩ ∧
    (importAll d st user now rid).services = d.services.getD [] ∧
    (importAll d st user now rid).team = d.team.getD [] ∧
    (importAll d st user now rid).testimonials = d.testimonials.getD [] ∧
    (importAll d st user now rid).jobs = d.jobs.getD [] ∧
    (importAll d st user now rid).users = d.users.getD [] ∧
    (importAll d st user now rid).contacts = d.contacts.getD [] ∧
    (importAll d st user now rid).newsletter = d.newsletter.getD [] ∧
    (importAll d st user now rid).applications = d.applications.getD [] ∧
    (∀ e ∈ (importAll d st user now rid).activityLogs,
      e ∈ d.activityLogs.getD [] ∨
        e = ⟨rid, "import", "backup", "restore", "Full Restore", user, now, none⟩) := by
  have key : ∀ (p : ImportPayload),
      importAll p st user now rid =
        ⟨p.services.getD [], p.team.getD [], p.testimonials.getD [], p.jobs.getD [],
          p.users.getD [], p.contacts.getD [], p.newsletter.getD [], p.applications.getD [],
          (p.activityLogs.getD []).filter
              (fun log => now - 30 * 24 * 60 * 60 * 1000 ≤ log.timestamp)
            ++ [⟨rid, "import", "backup", "restore", "Full Restore", user, now, none⟩]⟩ := by
    intro p
    simp only [importAll, logActivity]
    rw [(addActivityLog_spec _ _ _ _ _ _ _ _ _).1]
  refine ⟨?_, ?_, ?_, ?_, ?_, ?_, ?_, ?_, ?_, ?_⟩
  · rw [key]
    rfl
  · rw [key]
  · rw [key]
  · rw [key]
  · rw [key]
  · rw [key]
  · rw [key]
  · rw [key]
  · rw [key]
  · rw [key]
    intro e he
    rcases List.mem_append.mp he with hin | hnew
    · exact Or.inl (List.mem_of_mem_filter hin)
    · exact Or.inr (List.mem_singleton.mp hnew)

/-- Witness for C3 at a concrete state and payload (the backup carries one
fresh activity-log entry; the import entry is recognised as such). -/
theorem importAll_replace_completeness_witness :
    importAll ⟨none, none, none, none, none, none, none, none, none⟩
      ⟨[], [], [], [], [], [⟨"c1", "N", "e@x", "1", "s", "m", 5, "new"⟩], [], [], []⟩
      "System" 100 "log-9" =
      ⟨[], [], [], [], [], [], [], [],
        [⟨"log-9", "import", "backup", "restore", "Full Restore", "System", 100, none⟩]⟩ ∧
    ((⟨"log-9", "import", "backup", "restore", "Full Restore", "System", 100, none⟩ :
        ActivityLog) ∈
      (importAll ⟨none, none, none, none, none, none, none, some [], none⟩
        ⟨[], [], [], [], [], [⟨"c1", "N", "e@x", "1", "s", "m", 5, "new"⟩], [], [], []⟩
        "System" 100 "log-9").activityLogs →
      (⟨"log-9", "import", "backup", "restore", "Full Restore", "System", 100, none⟩ :
          ActivityLog) ∈ ([] : List ActivityLog) ∨
        (⟨"log-9", "import", "backup", "restore", "Full Restore", "System", 100, none⟩ :
          ActivityLog) =
          ⟨"log-9", "import", "backup", "restore", "Full Restore", "System", 100, none⟩) := by
  refine ⟨(importAll_replace_completeness
    ⟨[], [], [], [], [], [⟨"c1", "N", "e@x", "1", "s", "m", 5, "new"⟩], [], [], []⟩
    ⟨none, none, none, none, none, none, none, none, none⟩ "System" 100 "log-9").1, ?_⟩
  intro he
  exact (importAll_replace_completeness
    ⟨[], [], [], [], [], [⟨"c1", "N", "e@x", "1", "s", "m", 5, "new"⟩], [], [], []⟩
    ⟨none, none, none, none, none, none, none, some [], none⟩
    "System" 100 "log-9").2.2.2.2.2.2.2.2.2 _ he

/-! ## Merge-import (`database.ts` lines 1110-1262) -/

/-- A `forEach` loop `l.forEach((x) => map.set(key(x), x))` over an existing
map: the shape shared by every merge branch of `importAllMerge`. -/
def buildMap (key : α → String) (l : List α) (init : List (String × α)) :
    List (String × α) :=
  l.foldl (fun m x => JsMap.set m (key x) x) init

/-- The inline `mergeById` helper of `Database.importAllMerge` (lines
1112-1145), generic over records with a string id (the TS generic
`<T extends { id: string }>`; `getId` is the `.id` accessor). Seeds a map with
the backup items, overlays existing items not present in the backup, then
returns the map values in backup order followed by the existing-only items
(the source's `map.get(item.id)!` non-null assertion becomes `filterMap`). -/
def mergeById (getId : α → String) (existing backup : List α) : List α :=
  let m := buildMap getId backup []
  let m := existing.foldl
    (fun m item => if JsMap.has m (getId item) then m else JsMap.set m (getId item) item) m
  let backupIds := backup.map getId
  (backup.filterMap (fun item => JsMap.get m (getId item)))
    ++ existing.filter (fun item => ¬ backupIds.contains (getId item))

/-- The users branch of `importAllMerge` (lines 1176-1188): merge by id, then
re-attach each existing user's password onto the merged record whenever the
existing user has a (truthy) password. -/
def mergeUsers (existing backup : List User) : List User :=
  let existingMap := buildMap (fun u => u.id) existing []
  (mergeById (fun u => u.id) existing backup).map (fun user =>
    match JsMap.get existingMap user.id with
    | some existingUser =>
        if existingUser.password ≠ "" then { user with password := existingUser.password }
        else user
    | none => user)

/-- The contacts branch of `importAllMerge` (lines 1191-1201): de-duplicate by
id via a map, existing entries inserted first, backup entries overriding. -/
def mergeContacts (existing backup : List Contact) : List Contact :=
  let m := buildMap (fun contact => contact.id) existing []
  let m := buildMap (fun contact => contact.id) backup m
  JsMap.values m

/-- The normalized newsletter dedupe key (line 1208/1212):
`(sub.email || sub.whatsapp || sub.id).toLowerCase()`. -/
def newsletterKey (sub : NewsletterSubscriber) : String :=
  (if sub.email ≠ "" then sub.email
   else if sub.whatsapp ≠ "" then sub.whatsapp
   else sub.id).toLower

/-- The newsletter branch of `importAllMerge` (lines 1204-1225): keyed by
`newsletterKey`; a backup entry replaces the stored one only when its
subscription timestamp is strictly more recent. -/
def mergeNewsletter (existing backup : List NewsletterSubscriber) :
    List NewsletterSubscriber :=
  let m := buildMap newsletterKey existing []
  let m := backup.foldl (fun m sub =>
    match JsMap.get m (newsletterKey sub) with
    | some existingSub =>
        if existingSub.subscribedAt < sub.subscribedAt then
          JsMap.set m (newsletterKey sub) sub
        else m
    | none => JsMap.set m (newsletterKey sub) sub) m
  JsMap.values m

/-- The applications branch of `importAllMerge` (lines 1228-1238): same
de-duplication by id as contacts. -/
def mergeApplications (existing backup : List JobApplication) : List JobApplication :=
  let m := buildMap (fun app => app.id) existing []
  let m := buildMap (fun app => app.id) backup m
  JsMap.values m

/-- The activity-log branch of `importAllMerge` (lines 1241-1259): merge by
id, a backup entry winning only when strictly newer. -/
def mergeActivityLogs (existing backup : List ActivityLog) : List ActivityLog :=
  let m := buildMap (fun log => log.id) existing []
  let m := backup.foldl (fun m log =>
    match JsMap.get m log.id with
    | some existingLog =>
        if existingLog.timestamp < log.timestamp then JsMap.set m log.id log
        else m
    | none => JsMap.set m log.id log) m
  JsMap.values m

/-- `Database.importAllMerge` (lines 1111-1262): per-collection merge for every
collection present in the backup, finishing with
`logActivity("import", "backup", "merge", "Merge Restore")`. Per-collection
emits are elided in this content model. -/
def importAllMerge (data : ImportPayload) (st : DBState) (user : String) (now : Int)
    (rid : String) : DBState :=
  let st := match data.services with
    | some backup => { st with services := mergeById (fun s => s.id) st.services backup }
    | none => st
  let st := match data.team with
    | some backup => { st with team := mergeById (fun m => m.id) st.team backup }
    | none => st
  let st := match data.testimonials with
    | some backup =>
        { st with testimonials := mergeById (fun t => t.id) st.testimonials backup }
    | none => st
  let st := match data.jobs with
    | some backup => { st with jobs := mergeById (fun j => j.id) st.jobs backup }
    | none => st
  let st := match data.users with
    | some backup => { st with users := mergeUsers st.users backup }
    | none => st
  let st := match data.contacts with
    | some backup => { st with contacts := mergeContacts st.contacts backup }
    | none => st
  let st := match data.newsletter with
    | some backup => { st with newsletter := mergeNewsletter st.newsletter backup }
    | none => st
  let st := match data.applications with
    | some backup => { st with applications := mergeApplications st.applications backup }
    | none => st
  let st := match data.activityLogs with
    | some backup => { st with activityLogs := mergeActivityLogs st.activityLogs backup }
    | none => st
  (logActivity st "import" "backup" "merge" "Merge Restore" none user now rid).state

/-! ## Lemma toolkit for folds and the JS map model -/

/-- A fold whose step fixes the accumulator pointwise on `l` leaves it
unchanged. -/
theorem foldl_fixed {α β : Type} (f : β → α → β) (l : List α) (m : β)
    (h : ∀ x ∈ l, f m x = m) : l.foldl f m = m := by
  induction l with
  | nil => rfl
  | cons y ys ih =>
    rw [List.foldl_cons, h y (List.mem_cons_self y ys)]
    exact ih fun x hx => h x (List.mem_cons_of_mem y hx)

/-- Invariant preservation through a left fold. -/
theorem foldl_invariant {α β : Type} (Inv : β → Prop) (f : β → α → β) :
    ∀ (l : List α) (init : β), Inv init → (∀ m x, Inv m → x ∈ l → Inv (f m x)) →
      Inv (l.foldl f init) := by
  intro l
  induction l with
  | nil => intro init h0 _; exact h0
  | cons y ys ih =>
    intro init h0 hstep
    rw [List.foldl_cons]
    exact ih (f init y) (hstep init y h0 (List.mem_cons_self y ys))
      fun m x hm hx => hstep m x hm (List.mem_cons_of_mem y hx)

/-- A `filterMap` that returns each element unchanged is the identity. -/
theorem filterMap_id_of_eq_some {α : Type} (f : α → Option α) :
    ∀ (l : List α), (∀ x ∈ l, f x = some x) → l.filterMap f = l := by
  intro l
  induction l with
  | nil => simp
  | cons y ys ih =>
    intro h
    rw [List.filterMap_cons, h y (List.mem_cons_self y ys),
      ih fun x hx => h x (List.mem_cons_of_mem y hx)]

namespace JsMap

theorem mem_set {m : List (String × α)} {k : String} {v : α} {p : String × α}
    (hp : p ∈ set m k v) : p ∈ m ∨ p = (k, v) := by
  unfold set at hp
  split at hp
  · rcases List.mem_map.mp hp with ⟨q, hq, hmap⟩
    by_cases hqk : q.1 = k
    · right
      rw [← hmap]
      simp [hqk]
    · left
      rw [← hmap]
      simpa [hqk] using hq
  · rcases List.mem_append.mp hp with h | h
    · exact Or.inl h
    · right
      simpa using h

theorem get_mem {m : List (String × α)} {k : String} {v : α} (h : get m k = some v) :
    (k, v) ∈ m := by
  unfold get at h
  cases hf : m.find? (fun p => p.1 = k) with
  | none => rw [hf] at h; cases h
  | some p =>
    rw [hf] at h
    simp only [Option.map_some'] at h
    have hm := List.mem_of_find?_eq_some hf
    have hk := List.find?_some hf
    simp only [decide_eq_true_eq] at hk
    cases h
    cases p
    cases hk
    exact hm

theorem has_iff {m : List (String × α)} {k : String} :
    has m k = true ↔ k ∈ m.map Prod.fst := by
  unfold has
  rw [List.any_eq_true]
  constructor
  · rintro ⟨p, hp, hpk⟩
    simp only [decide_eq_true_eq] at hpk
    exact List.mem_map.mpr ⟨p, hp, hpk⟩
  · intro hmem
    rcases List.mem_map.mp hmem with ⟨p, hp, hpk⟩
    exact ⟨p, hp, by simp [hpk]⟩

theorem get_eq_some_of_mem_keys {m : List (String × α)} {k : String}
    (h : k ∈ m.map Prod.fst) : ∃ v, get m k = some v := by
  unfold get
  cases hf : m.find? (fun p => p.1 = k) with
  | some p => exact ⟨p.2, by simp⟩
  | none =>
    exfalso
    rcases List.mem_map.mp h with ⟨p, hp, hpk⟩
    have := List.find?_eq_none.mp hf p hp
    simp [hpk] at this

theorem set_fresh {m : List (String × α)} {k : String} {v : α}
    (h : k ∉ m.map Prod.fst) : set m k v = m ++ [(k, v)] := by
  unfold set
  rw [if_neg]
  intro hany
  rcases List.any_eq_true.mp hany with ⟨p, hp, hpk⟩
  simp only [decide_eq_true_eq] at hpk
  exact h (List.mem_map.mpr ⟨p, hp, hpk⟩)

theorem set_same {m : List (String × α)} {k : String} {v : α}
    (hmem : (k, v) ∈ m) (huniq : ∀ p ∈ m, p.1 = k → p = (k, v)) : set m k v = m := by
  unfold set
  rw [if_pos]
  · conv_rhs => rw [← List.map_id m]
    apply List.map_congr_left
    intro p hp
    by_cases hpk : p.1 = k
    · rw [if_pos (by simp [hpk])]
      exact (huniq p hp hpk).symm
    · rw [if_neg (by simp [hpk])]
      rfl
  · exact List.any_eq_true.mpr ⟨(k, v), hmem, by simp⟩

theorem mem_keys_set {m : List (String × α)} {k k' : String} {v : α}
    (h : k' ∈ m.map Prod.fst) : k' ∈ (set m k v).map Prod.fst := by
  unfold set
  split
  · rw [List.map_map]
    rcases List.mem_map.mp h with ⟨p, hp, hpk⟩
    refine List.mem_map.mpr ⟨p, hp, ?_⟩
    by_cases hq : p.1 = k
    · simp only [Function.comp_apply, if_pos hq]
      rw [← hpk, hq]
    · simp only [Function.comp_apply, if_neg hq]
      exact hpk
  · rw [List.map_append]
    exact List.mem_append_left _ h

theorem mem_keys_set_self {m : List (String × α)} {k : String} {v : α} :
    k ∈ (set m k v).map Prod.fst := by
  unfold set
  split
  next hany =>
    rcases List.any_eq_true.mp hany with ⟨p, hp, hpk⟩
    simp only [decide_eq_true_eq] at hpk
    rw [List.map_map]
    exact List.mem_map.mpr ⟨p, hp, by simp [hpk]⟩
  next =>
    rw [List.map_append]
    exact List.mem_append_right _ (by simp)

end JsMap

/-- Fresh keys only: `buildMap` appends its pairs in list order. -/
theorem buildMap_fresh {α : Type} (key : α → String) :
    ∀ (l : List α) (init : List (String × α)), (l.map key).Nodup →
      (∀ x ∈ l, key x ∉ init.map Prod.fst) →
      buildMap key l init = init ++ l.map fun x => (key x, x) := by
  intro l
  induction l with
  | nil => intro init _ _; simp [buildMap]
  | cons y ys ih =>
    intro init hnd hdisj
    have hy : key y ∉ init.map Prod.fst := hdisj y (List.mem_cons_self y ys)
    have hnd' : (ys.map key).Nodup := by
      rw [List.map_cons] at hnd
      exact hnd.of_cons
    have hyys : key y ∉ ys.map key := by
      rw [List.map_cons] at hnd
      exact (List.nodup_cons.mp hnd).1
    have hstep : buildMap key (y :: ys) init =
        buildMap key ys (JsMap.set init (key y) y) := by
      simp [buildMap]
    rw [hstep, JsMap.set_fresh hy,
      ih (init ++ [(key y, y)]) hnd' ?_, List.map_cons, List.append_assoc]
    · rfl
    · intro x hx
      rw [List.map_append]
      intro hmem
      rcases List.mem_append.mp hmem with hin | hin
      · exact hdisj x (List.mem_cons_of_mem y hx) hin
      · simp only [List.map_cons, List.map_nil, List.mem_singleton] at hin
        exact hyys (hin ▸ List.mem_map_of_mem key hx)

/-- Lookup in an association list of distinct-key pairs built from `l`. -/
theorem get_map_pair {α : Type} (key : α → String) :
    ∀ (l : List α), (l.map key).Nodup →
      ∀ x ∈ l, JsMap.get (l.map fun y => (key y, y)) (key x) = some x := by
  intro l
  induction l with
  | nil => intro _ x hx; cases hx
  | cons y ys ih =>
    intro hnd x hx
    rw [List.map_cons] at hnd ⊢
    rcases List.mem_cons.mp hx with rfl | hx'
    · unfold JsMap.get
      rw [List.find?_cons_of_pos _ (by simp)]
      simp
    · have hne : ¬ key y = key x := by
        intro heq
        exact (List.nodup_cons.mp hnd).1 (heq ▸ List.mem_map_of_mem key hx')
      have := ih hnd.of_cons x hx'
      unfold JsMap.get at this ⊢
      rw [List.find?_cons_of_neg _ (by simp [hne])]
      exact this

/-- With distinct keys, `buildMap` over the empty map is the pair list. -/
theorem buildMap_eq_of_nodup {α : Type} (key : α → String) (l : List α)
    (h : (l.map key).Nodup) : buildMap key l [] = l.map fun x => (key x, x) := by
  simpa using buildMap_fresh key l [] h (by simp)

/-- With distinct keys, looking up a member's key returns that member. -/
theorem get_buildMap_self {α : Type} (key : α → String) (l : List α)
    (h : (l.map key).Nodup) (x : α) (hx : x ∈ l) :
    JsMap.get (buildMap key l []) (key x) = some x := by
  rw [buildMap_eq_of_nodup key l h]
  exact get_map_pair key l h x hx

/-- Every pair of a `buildMap` result is an initial pair or keyed from `l`. -/
theorem mem_buildMap {α : Type} {key : α → String} {l : List α}
    {init : List (String × α)} {p : String × α} (hp : p ∈ buildMap key l init) :
    p ∈ init ∨ ∃ x ∈ l, p = (key x, x) := by
  refine foldl_invariant
    (fun m => ∀ q ∈ m, q ∈ init ∨ ∃ x ∈ l, q = (key x, x))
    (fun m x => JsMap.set m (key x) x) l init ?_ ?_ p hp
  · intro q hq
    exact Or.inl hq
  · intro m x hm hx q hq
    rcases JsMap.mem_set hq with hq' | hq'
    · exact hm q hq'
    · exact Or.inr ⟨x, hx, hq'⟩

/-- A processed element's key is a key of the resulting `buildMap`. -/
theorem mem_keys_buildMap {α : Type} (key : α → String) (x : α) :
    ∀ (l : List α) (init : List (String × α)), x ∈ l →
      key x ∈ (buildMap key l init).map Prod.fst := by
  intro l
  induction l with
  | nil => intro init h; cases h
  | cons y ys ih =>
    intro init hx
    have hstep : buildMap key (y :: ys) init =
        buildMap key ys (JsMap.set init (key y) y) := by
      simp [buildMap]
    rw [hstep]
    rcases List.mem_cons.mp hx with rfl | hx'
    · exact foldl_invariant (fun m => key x ∈ m.map Prod.fst)
        (fun m z => JsMap.set m (key z) z) ys (JsMap.set init (key x) x)
        JsMap.mem_keys_set_self fun m z hm _ => JsMap.mem_keys_set hm
    · exact ih _ hx'

/-! ## Self-merge lemmas (for distinct keys, merging a collection with
itself is the identity) -/

theorem mergeById_self {α : Type} (getId : α → String) (l : List α)
    (h : (l.map getId).Nodup) : mergeById getId l l = l := by
  have hov : l.foldl
      (fun m item => if JsMap.has m (getId item) then m
        else JsMap.set m (getId item) item) (buildMap getId l []) =
      buildMap getId l [] := by
    apply foldl_fixed
    intro x hx
    have hhas : JsMap.has (buildMap getId l []) (getId x) = true :=
      JsMap.has_iff.mpr (mem_keys_buildMap getId x l [] hx)
    simp [hhas]
  simp only [mergeById]
  rw [hov, filterMap_id_of_eq_some _ l fun x hx => get_buildMap_self getId l h x hx,
    List.filter_eq_nil_iff.mpr ?_, List.append_nil]
  intro x hx
  simp only [List.contains, decide_eq_true_eq, Decidable.not_not, List.elem_iff,
    List.mem_map]
  exact ⟨x, hx, rfl⟩

theorem mergeUsers_self (l : List User) (h : (l.map fun u => u.id).Nodup) :
    mergeUsers l l = l := by
  simp only [mergeUsers]
  rw [mergeById_self _ l h]
  have hfix : ∀ u ∈ l,
      (fun user : User =>
        match JsMap.get (buildMap (fun u => u.id) l []) user.id with
        | some existingUser =>
            if existingUser.password ≠ "" then { user with password := existingUser.password }
            else user
        | none => user) u = u := by
    intro u hu
    have hg := get_buildMap_self (fun u => u.id) l h u hu
    simp only at hg
    simp only [hg]
    by_cases hp : u.password ≠ "" <;> simp [hp]
  rw [List.map_congr_left hfix]
  simp

theorem mergeContacts_self (l : List Contact) (h : (l.map fun c => c.id).Nodup) :
    mergeContacts l l = l := by
  simp only [mergeContacts]
  rw [buildMap_eq_of_nodup _ l h]
  have hov : buildMap (fun c => c.id) l (l.map fun x => ((fun c : Contact => c.id) x, x)) =
      l.map fun x => ((fun c : Contact => c.id) x, x) := by
    unfold buildMap
    apply foldl_fixed
    intro x hx
    apply JsMap.set_same
    · exact List.mem_map_of_mem _ hx
    · intro p hp hpk
      rcases List.mem_map.mp hp with ⟨y, hy, rfl⟩
      have hxy : y = x := List.inj_on_of_nodup_map h hy hx hpk
      rw [hxy]
  rw [hov]
  simp only [JsMap.values, List.map_map]
  show l.map (fun a => a) = l
  simp

theorem mergeNewsletter_self (l : List NewsletterSubscriber)
    (h : (l.map newsletterKey).Nodup) : mergeNewsletter l l = l := by
  simp only [mergeNewsletter]
  rw [buildMap_eq_of_nodup _ l h]
  have hov : l.foldl
      (fun m sub =>
        match JsMap.get m (newsletterKey sub) with
        | some existingSub =>
            if existingSub.subscribedAt < sub.subscribedAt then
              JsMap.set m (newsletterKey sub) sub
            else m
        | none => JsMap.set m (newsletterKey sub) sub)
      (l.map fun x => (newsletterKey x, x)) = l.map fun x => (newsletterKey x, x) := by
    apply foldl_fixed
    intro x hx
    have hg := get_map_pair newsletterKey l h x hx
    simp only [hg, lt_irrefl, if_false]
  rw [hov]
  simp only [JsMap.values, List.map_map]
  show l.map (fun a => a) = l
  simp

theorem mergeApplications_self (l : List JobApplication)
    (h : (l.map fun a => a.id).Nodup) : mergeApplications l l = l := by
  simp only [mergeApplications]
  rw [buildMap_eq_of_nodup _ l h]
  have hov : buildMap (fun a => a.id)
      l (l.map fun x => ((fun a : JobApplication => a.id) x, x)) =
      l.map fun x => ((fun a : JobApplication => a.id) x, x) := by
    unfold buildMap
    apply foldl_fixed
    intro x hx
    apply JsMap.set_same
    · exact List.mem_map_of_mem _ hx
    · intro p hp hpk
      rcases List.mem_map.mp hp with ⟨y, hy, rfl⟩
      have hxy : y = x := List.inj_on_of_nodup_map h hy hx hpk
      rw [hxy]
  rw [hov]
  simp only [JsMap.values, List.map_map]
  show l.map (fun a => a) = l
  simp

theorem mergeActivityLogs_self (l : List ActivityLog)
    (h : (l.map fun e => e.id).Nodup) : mergeActivityLogs l l = l := by
  simp only [mergeActivityLogs]
  rw [buildMap_eq_of_nodup _ l h]
  have hov : l.foldl
      (fun m log =>
        match JsMap.get m log.id with
        | some existingLog =>
            if existingLog.timestamp < log.timestamp then JsMap.set m log.id log
            else m
        | none => JsMap.set m log.id log)
      (l.map fun x => ((fun e : ActivityLog => e.id) x, x)) =
      l.map fun x => ((fun e : ActivityLog => e.id) x, x) := by
    apply foldl_fixed
    intro x hx
    have hg := get_map_pair (fun e : ActivityLog => e.id) l h x hx
    simp only at hg
    simp only [hg, lt_irrefl, if_false]
  rw [hov]
  simp only [JsMap.values, List.map_map]
  show l.map (fun a => a) = l
  simp

/-! ## Theorems for C2 -/

/-- C2 (amended): for every store state whose collections carry pairwise
distinct ids (for the newsletter, pairwise distinct normalized
`email || whatsapp || id` keys), merge-importing the state's own export leaves
all eight data collections unchanged in content and count; the activity log
passes through the final `logActivity("import", ...)` call, i.e. it equals its
30-day-retained entries plus the single fresh `"import"` entry. -/
theorem importAllMerge_exportAll_idempotent (st : DBState) (user : String) (now : Int)
    (rid : String)
    (hserv : (st.services.map fun s => s.id).Nodup)
    (hteam : (st.team.map fun m => m.id).Nodup)
    (htest : (st.testimonials.map fun t => t.id).Nodup)
    (hjobs : (st.jobs.map fun j => j.id).Nodup)
    (husers : (st.users.map fun u => u.id).Nodup)
    (hcont : (st.contacts.map fun c => c.id).Nodup)
    (hnews : (st.newsletter.map newsletterKey).Nodup)
    (happ : (st.applications.map fun a => a.id).Nodup)
    (hlogs : (st.activityLogs.map fun e => e.id).Nodup) :
    (importAllMerge (exportAll st) st user now rid).services = st.services ∧
    (importAllMerge (exportAll st) st user now rid).team = st.team ∧
    (importAllMerge (exportAll st) st user now rid).testimonials = st.testimonials ∧
    (importAllMerge (exportAll st) st user now rid).jobs = st.jobs ∧
    (importAllMerge (exportAll st) st user now rid).users = st.users ∧
    (importAllMerge (exportAll st) st user now rid).contacts = st.contacts ∧
    (importAllMerge (exportAll st) st user now rid).newsletter = st.newsletter ∧
    (importAllMerge (exportAll st) st user now rid).applications = st.applications ∧
    (importAllMerge (exportAll st) st user now rid).activityLogs =
      st.activityLogs.filter (fun log => now - 30 * 24 * 60 * 60 * 1000 ≤ log.timestamp)
        ++ [⟨rid, "import", "backup", "merge", "Merge Restore", user, now, none⟩] := by
  simp only [importAllMerge, exportAll, logActivity]
  rw [mergeById_self _ _ hserv, mergeById_self _ _ hteam, mergeById_self _ _ htest,
    mergeById_self _ _ hjobs, mergeUsers_self _ husers, mergeContacts_self _ hcont,
    mergeNewsletter_self _ hnews, mergeApplications_self _ happ,
    mergeActivityLogs_self _ hlogs, (addActivityLog_spec _ _ _ _ _ _ _ _ _).1]
  exact ⟨rfl, rfl, rfl, rfl, rfl, rfl, rfl, rfl, rfl⟩

/-- Witness for C2 (amended) at a concrete state with distinct ids. -/
theorem importAllMerge_exportAll_idempotent_witness :
    (importAllMerge
      (exportAll ⟨[], [], [], [], [],
        [⟨"c1", "A", "a@x", "1", "s", "m", 5, "new"⟩,
         ⟨"c2", "B", "b@x", "2", "s", "m", 6, "new"⟩], [], [], []⟩)
      ⟨[], [], [], [], [],
        [⟨"c1", "A", "a@x", "1", "s", "m", 5, "new"⟩,
         ⟨"c2", "B", "b@x", "2", "s", "m", 6, "new"⟩], [], [], []⟩
      "System" 7 "r").contacts =
      [⟨"c1", "A", "a@x", "1", "s", "m", 5, "new"⟩,
       ⟨"c2", "B", "b@x", "2", "s", "m", 6, "new"⟩] := by
  exact (importAllMerge_exportAll_idempotent
    ⟨[], [], [], [], [],
      [⟨"c1", "A", "a@x", "1", "s", "m", 5, "new"⟩,
       ⟨"c2", "B", "b@x", "2", "s", "m", 6, "new"⟩], [], [], []⟩
    "System" 7 "r" (by decide) (by decide) (by decide) (by decide) (by decide)
    (by decide) (by decide) (by decide) (by decide)).2.2.2.2.2.1

/-- Counterexample to C2 as stated: a reachable state whose contacts
collection holds two records with the same id (e.g. written wholesale by a
replace import) loses one of them — the count drops from 2 to 1, so
merge-importing the state's own export does not leave every collection
unchanged for every store state. -/
theorem importAllMerge_exportAll_not_idempotent :
    (importAllMerge
      (exportAll ⟨[], [], [], [], [],
        [⟨"c1", "A", "a@x", "1", "s", "m", 5, "new"⟩,
         ⟨"c1", "A", "a@x", "1", "s", "m", 5, "new"⟩], [], [], []⟩)
      ⟨[], [], [], [], [],
        [⟨"c1", "A", "a@x", "1", "s", "m", 5, "new"⟩,
         ⟨"c1", "A", "a@x", "1", "s", "m", 5, "new"⟩], [], [], []⟩
      "System" 7 "r").contacts.length = 1 ∧
    ([⟨"c1", "A", "a@x", "1", "s", "m", 5, "new"⟩,
      ⟨"c1", "A", "a@x", "1", "s", "m", 5, "new"⟩] : List Contact).length = 2 := by
  constructor
  · rfl
  · rfl

/-! ## Theorem for C7 -/

/-- Every record produced by the users merge keeps the id of the record it was
built from. -/
theorem mergeUsers_id_preserved (existing backup : List User) (v : User)
    (hv : v ∈ mergeUsers existing backup) :
    ∃ u ∈ mergeById (fun u => u.id) existing backup, v.id = u.id ∧
      (∀ e : User, JsMap.get (buildMap (fun u => u.id) existing []) u.id = some e →
        e.password ≠ "" → v.password = e.password) := by
  simp only [mergeUsers] at hv
  rcases List.mem_map.mp hv with ⟨u, hu, hmap⟩
  refine ⟨u, hu, ?_, ?_⟩
  · rw [← hmap]
    cases hg : JsMap.get (buildMap (fun u => u.id) existing []) u.id with
    | none => simp [hg]
    | some eu =>
        simp only [hg]
        by_cases hp : eu.password ≠ "" <;> simp [hp]
  · intro e hg hpw
    rw [← hmap]
    simp only [hg, if_pos hpw]

/-- All pairs of the merge map built by `mergeById` satisfy `value.id = key`. -/
theorem mergeById_map_pairs_id {α : Type} (getId : α → String)
    (existing backup : List α) (p : String × α)
    (hp : p ∈ existing.foldl
      (fun m item => if JsMap.has m (getId item) then m
        else JsMap.set m (getId item) item) (buildMap getId backup [])) :
    getId p.2 = p.1 := by
  refine foldl_invariant (fun m => ∀ q ∈ m, getId q.2 = q.1) _ existing
    (buildMap getId backup []) ?_ ?_ p hp
  · intro q hq
    rcases mem_buildMap hq with hq' | ⟨x, _, rfl⟩
    · cases hq'
    · rfl
  · intro m x hm _ q hq
    split at hq
    · exact hm q hq
    · rcases JsMap.mem_set hq with hq' | hq'
      · exact hm q hq'
      · rw [hq']

/-- The merge map of `mergeById` has every backup id among its keys. -/
theorem mergeById_map_keys_backup {α : Type} (getId : α → String)
    (existing backup : List α) (b : α) (hb : b ∈ backup) :
    getId b ∈ (existing.foldl
      (fun m item => if JsMap.has m (getId item) then m
        else JsMap.set m (getId item) item) (buildMap getId backup [])).map Prod.fst := by
  refine foldl_invariant (fun m => getId b ∈ m.map Prod.fst) _ existing
    (buildMap getId backup []) (mem_keys_buildMap getId b backup [] hb) ?_
  intro m x hm _
  split
  · exact hm
  · exact JsMap.mem_keys_set hm

/-- `mergeById` keeps every id that the existing collection had: either via a
backup record with that id or via the appended existing-only record. -/
theorem mergeById_mem_of_existing {α : Type} (getId : α → String)
    (existing backup : List α) (e : α) (he : e ∈ existing) :
    ∃ u ∈ mergeById getId existing backup, getId u = getId e := by
  by_cases hb : ∃ b ∈ backup, getId b = getId e
  · rcases hb with ⟨b, hbmem, hbid⟩
    have hkey := mergeById_map_keys_backup getId existing backup b hbmem
    rcases JsMap.get_eq_some_of_mem_keys hkey with ⟨w, hw⟩
    have hwid : getId w = getId b :=
      mergeById_map_pairs_id getId existing backup (getId b, w) (JsMap.get_mem hw)
    refine ⟨w, ?_, hwid.trans hbid⟩
    simp only [mergeById]
    exact List.mem_append_left _ (List.mem_filterMap.mpr ⟨b, hbmem, hw⟩)
  · refine ⟨e, ?_, rfl⟩
    simp only [mergeById]
    refine List.mem_append_right _ (List.mem_filter.mpr ⟨he, ?_⟩)
    simp only [List.contains, decide_eq_true_eq, List.elem_iff, List.mem_map]
    push_neg at hb ⊢
    intro b hbmem
    exact hb b hbmem

/-- The password re-attachment step of the users merge keeps the id. -/
theorem usersReattach_id (existing : List User) (w : User) :
    ((fun user : User =>
      match JsMap.get (buildMap (fun u : User => u.id) existing []) user.id with
      | some existingUser =>
          if existingUser.password ≠ "" then { user with password := existingUser.password }
          else user
      | none => user) w).id = w.id := by
  cases hg : JsMap.get (buildMap (fun u : User => u.id) existing []) w.id with
  | none => simp [hg]
  | some eu =>
      simp only [hg]
      by_cases hp : eu.password ≠ "" <;> simp [hp]

/-- C7: users merge never regresses a password. If the stored users map an id
to a user `e` whose password is non-empty (truthy), then after the users
branch of `importAllMerge` a record with that id is still present, and every
merged record with that id carries exactly `e`'s password — in particular a
merged incoming record lacking a compatible password gets `e`'s password
re-attached, and no password is lost or blanked. (The source re-attaches the
existing password whenever the existing user has one, which subsumes the
claim's condition that the incoming record lacks a compatible one.) -/
theorem mergeUsers_never_regresses_password (existing backup : List User)
    (i : String) (e : User)
    (hget : JsMap.get (buildMap (fun u => u.id) existing []) i = some e)
    (hpw : e.password ≠ "") :
    (∃ v ∈ mergeUsers existing backup, v.id = i) ∧
    ∀ v ∈ mergeUsers existing backup, v.id = i →
      v.password = e.password ∧ v.password ≠ "" := by
  have hpair := JsMap.get_mem hget
  have hee : e ∈ existing ∧ e.id = i := by
    rcases mem_buildMap hpair with hmem | ⟨x, hx, hx'⟩
    · cases hmem
    · rcases Prod.mk.injEq .. ▸ hx' with ⟨h1, h2⟩
      cases h2
      exact ⟨hx, h1.symm⟩
  constructor
  · rcases mergeById_mem_of_existing (fun u : User => u.id) existing backup e hee.1 with
      ⟨u, hu, huid⟩
    simp only [mergeUsers]
    refine ⟨_, List.mem_map_of_mem _ hu, ?_⟩
    exact (usersReattach_id existing u).trans (huid.trans hee.2)
  · intro v hv hvid
    rcases mergeUsers_id_preserved existing backup v hv with ⟨u, _, hvu, hpass⟩
    have hui : u.id = i := by rw [← hvu, hvid]
    have hv' := hpass e (by rw [hui]; exact hget) hpw
    exact ⟨hv', by rw [hv']; exact hpw⟩

/-- Witness for C7: the stored user `u1` with password `"ha"` keeps it through
a merge whose backup carries the same id with an empty password. -/
theorem mergeUsers_never_regresses_password_witness :
    (∃ v ∈ mergeUsers [⟨"u1", "a@x", "A", "ha", "t0", true⟩]
      [⟨"u1", "a@x", "A", "", "t0", true⟩], v.id = "u1") ∧
    ∀ v ∈ mergeUsers [⟨"u1", "a@x", "A", "ha", "t0", true⟩]
      [⟨"u1", "a@x", "A", "", "t0", true⟩], v.id = "u1" →
        v.password = "ha" ∧ v.password ≠ "" := by
  exact mergeUsers_never_regresses_password
    [⟨"u1", "a@x", "A", "ha", "t0", true⟩] [⟨"u1", "a@x", "A", "", "t0", true⟩]
    "u1" ⟨"u1", "a@x", "A", "ha", "t0", true⟩ (by rfl) (by decide)

/-! ## JSON value model and backup validation (`database.ts` lines 889-1030) -/

/-- A parsed JSON value (numbers as integers: the backup format carries no
fractional numbers, and the validator only tests numbers for truthiness). -/
inductive Json where
  | null : Json
  | bool (b : Bool) : Json
  | num (n : Int) : Json
  | str (s : String) : Json
  | arr (items : List Json) : Json
  | obj (fields : List (String × Json)) : Json

/-- `field in data` on an object (key presence). -/
def Json.hasField : Json → String → Bool
  | .obj fields, k => fields.any fun p => p.1 = k
  | _, _ => false

/-- `data[field]`: property read on an object, `none` = `undefined`. -/
def Json.getField : Json → String → Option Json
  | .obj fields, k => (fields.find? fun p => p.1 = k).map fun p => p.2
  | _, _ => none

/-- JS property access `x.k` where `x` is an arbitrary value: reading a
property of `null` throws a `TypeError` (modelled `Except.error ()`);
on any other non-object it yields `undefined`. -/
def jsProp : Json → String → Except Unit (Option Json)
  | .null, _ => .error ()
  | .obj fields, k => .ok ((fields.find? fun p => p.1 = k).map fun p => p.2)
  | _, _ => .ok none

/-- JS truthiness of a possibly-`undefined` value. -/
def jsTruthy : Option Json → Bool
  | none => false
  | some .null => false
  | some (.bool b) => b
  | some (.num n) => n ≠ 0
  | some (.str s) => s ≠ ""
  | some (.arr _) => true
  | some (.obj _) => true

/-- `Array.isArray`. -/
def jsIsArray : Option Json → Bool
  | some (.arr _) => true
  | _ => false

/-- `parseInt` on a regex digit group. -/
def digitsToNat (ds : List Char) : Nat :=
  ds.foldl (fun a c => a * 10 + (c.toNat - 48)) 0

/-- The `parseVersion` helper (lines 925-935): matches the unanchored-at-end
regex `^(\d+)\.(\d+)\.(\d+)` and converts the three digit groups. -/
def parseVersion (version : String) : Option (Nat × Nat × Nat) :=
  let cs := version.toList
  let d1 := cs.takeWhile Char.isDigit
  let r1 := cs.dropWhile Char.isDigit
  if d1.isEmpty then none else
  match r1 with
  | '.' :: r2 =>
    let d2 := r2.takeWhile Char.isDigit
    let r3 := r2.dropWhile Char.isDigit
    if d2.isEmpty then none else
    match r3 with
    | '.' :: r4 =>
      let d3 := r4.takeWhile Char.isDigit
      if d3.isEmpty then none
      else some (digitsToNat d1, digitsToNat d2, digitsToNat d3)
    | _ => none
  | _ => none

/-- `recordCounts` entry for one field (lines 993-1006). -/
def countOf (data : Json) (field : String) : Nat :=
  match Json.getField data field with
  | some (.arr items) => items.length
  | _ => 0

/-- The `recordCounts` block of the validation result. -/
structure RecordCounts where
  services : Nat
  team : Nat
  testimonials : Nat
  jobs : Nat
  users : Nat
  contacts : Nat
  newsletter : Nat
  applications : Nat

/-- The `metadata` block of a valid result (lines 1016-1021). -/
structure BackupMetadata where
  version : Json
  appVersion : Json
  exportedAt : Option Json
  recordCounts : RecordCounts

/-- `BackupValidationResult` from `src/lib/data.ts`. -/
structure BackupValidationResult where
  isValid : Bool
  errors : List String
  warnings : List String
  metadata : Option BackupMetadata

/-- `requiredFields` (lines 904-914). -/
def requiredFields : List String :=
  ["services", "team", "testimonials", "jobs", "users", "contacts", "newsletter",
   "applications", "exportedAt"]

/-- `arrayFields` (lines 966-975). -/
def arrayFields : List String :=
  ["services", "team", "testimonials", "jobs", "users", "contacts", "newsletter",
   "applications"]

/-- The missing-required-field errors (lines 916-920). -/
def missingFieldErrors (data : Json) : List String :=
  requiredFields.filterMap fun field =>
    if Json.hasField data field then none
    else some ("Missing required field: " ++ field)

/-- The version-compatibility check (lines 922-963), returning collected
(errors, warnings). `version.match(...)` on a truthy non-string value throws
(`TypeError: version.match is not a function`), caught by the outer catch. -/
def versionCheck (data : Json) : Except Unit (List String × List String) :=
  if jsTruthy (Json.getField data "version") then
    match Json.getField data "version" with
    | some (.str s) =>
      match parseVersion s, parseVersion BACKUP_FORMAT_VERSION with
      | some backupVersion, some currentVersion =>
        if backupVersion.1 ≠ currentVersion.1 then
          .ok (["Incompatible backup format version: " ++ s ++ " (current: " ++
            BACKUP_FORMAT_VERSION ++ "). Major version mismatch."], [])
        else if backupVersion.2.1 ≠ currentVersion.2.1 ∨
            backupVersion.2.2 ≠ currentVersion.2.2 then
          .ok ([], ["Backup version (" ++ s ++ ") differs from current version (" ++
            BACKUP_FORMAT_VERSION ++ ")"])
        else .ok ([], [])
      | _, _ => .ok ([], ["Unable to parse version information: " ++ s])
    | _ => .error ()
  else
    .ok ([], ["Backup does not include version information (limited compatibility)"])

/-- The data-type errors (lines 965-981): only a truthy non-array value is
flagged. -/
def typeErrors (data : Json) : List String :=
  arrayFields.filterMap fun field =>
    if jsTruthy (Json.getField data field) ∧ ¬ jsIsArray (Json.getField data field) then
      some ("Invalid data type for " ++ field ++ ": expected array")
    else none

/-- Per-item structure check of the services array (lines 984-990); reading
`item.id` of a `null` item throws. -/
def checkServiceItems : List Json → Nat → Except Unit (List String)
  | [], _ => .ok []
  | item :: rest, index => do
    let idv ← jsProp item "id"
    let titlev ← jsProp item "title"
    let tail ← checkServiceItems rest (index + 1)
    if ¬ jsTruthy idv ∨ ¬ jsTruthy titlev then
      .ok (("Invalid service structure at index " ++ toString index) :: tail)
    else
      .ok tail

/-- The services structure check, applied only when services is an array. -/
def serviceStructureErrors (data : Json) : Except Unit (List String) :=
  match Json.getField data "services" with
  | some (.arr items) => checkServiceItems items 0
  | _ => .ok []

/-- `data.version || "unknown"` (and likewise `appVersion`). -/
def metaField (data : Json) (field : String) : Json :=
  match Json.getField data field with
  | some v => if jsTruthy (some v) then v else .str "unknown"
  | none => .str "unknown"

/-- `Database.validateBackupFile` (lines 889-1030): non-objects (including
`null` and arrays) are rejected outright; otherwise errors and warnings are
collected in source order (missing fields, version, data types, services
structure); any thrown `TypeError` is caught and yields the generic invalid
result; errors make the result invalid, warnings alone do not. -/
def validateBackupFile (data : Json) : BackupValidationResult :=
  match data with
  | .obj _ =>
    match versionCheck data, serviceStructureErrors data with
    | .ok (versionErrors, versionWarnings), .ok serviceErrors =>
      let errors := missingFieldErrors data ++ versionErrors ++ typeErrors data
        ++ serviceErrors
      let warnings := versionWarnings
      if errors.length > 0 then
        ⟨false, errors, warnings, none⟩
      else
        ⟨true, [], warnings,
          some ⟨metaField data "version", metaField data "appVersion",
            Json.getField data "exportedAt",
            ⟨countOf data "services", countOf data "team", countOf data "testimonials",
              countOf data "jobs", countOf data "users", countOf data "contacts",
              countOf data "newsletter", countOf data "applications"⟩⟩⟩
    | _, _ => ⟨false, ["Invalid backup file format"], [], none⟩
  | _ => ⟨false, ["Invalid backup file format"], [], none⟩

/-! ## Theorems for C5 -/

/-- `versionCheck` cannot throw when the version field is absent, falsy, or a
string. -/
theorem versionCheck_ok_of_not_throw (data : Json)
    (h : Json.getField data "version" = none ∨
      jsTruthy (Json.getField data "version") = false ∨
      ∃ s, Json.getField data "version" = some (.str s)) :
    ∃ p, versionCheck data = .ok p := by
  unfold versionCheck
  rcases h with h | h | ⟨s, h⟩
  · rw [h]
    exact ⟨_, rfl⟩
  · rw [if_neg (by rw [h]; exact Bool.false_ne_true)]
    exact ⟨_, rfl⟩
  · rw [h]
    split_ifs with ht
    · show ∃ p, (match parseVersion s, parseVersion BACKUP_FORMAT_VERSION with
        | some backupVersion, some currentVersion =>
          if backupVersion.1 ≠ currentVersion.1 then
            Except.ok (["Incompatible backup format version: " ++ s ++ " (current: " ++
              BACKUP_FORMAT_VERSION ++ "). Major version mismatch."], [])
          else if backupVersion.2.1 ≠ currentVersion.2.1 ∨
              backupVersion.2.2 ≠ currentVersion.2.2 then
            Except.ok ([], ["Backup version (" ++ s ++ ") differs from current version ("
              ++ BACKUP_FORMAT_VERSION ++ ")"])
          else Except.ok ([], [])
        | _, _ => Except.ok ([], ["Unable to parse version information: " ++ s])) =
          Except.ok p
      rw [show parseVersion BACKUP_FORMAT_VERSION = some (1, 0, 0) from rfl]
      rcases parseVersion s with _ | ⟨⟨maj, mi, pa⟩⟩
      · exact ⟨_, rfl⟩
      · dsimp only
        split_ifs <;> exact ⟨_, rfl⟩
    · exact ⟨_, rfl⟩

/-- C5 (amended): backup validation outcomes for an input object with all
required top-level fields present. A missing (or falsy) version with
well-formed collections is valid-with-warning; a parsed major version other
than the current `1` is invalid with the major-mismatch error (provided the
services structure check does not throw); a collection field that is present,
truthy and not an array is invalid with a type error (the source only flags
truthy non-arrays); and warnings alone never invalidate — validity is exactly
emptiness of the error list. -/
theorem validateBackupFile_outcomes (data : Json)
    (hobj : ∃ fs, data = Json.obj fs)
    (hreq : ∀ f ∈ requiredFields, Json.hasField data f = true) :
    ((jsTruthy (Json.getField data "version") = false) →
      (∀ f ∈ arrayFields, jsTruthy (Json.getField data f) = false ∨
        jsIsArray (Json.getField data f) = true) →
      serviceStructureErrors data = Except.ok [] →
      (validateBackupFile data).isValid = true ∧
        (validateBackupFile data).warnings ≠ []) ∧
    (∀ s maj mi pa se, Json.getField data "version" = some (.str s) →
      parseVersion s = some (maj, mi, pa) → maj ≠ 1 →
      serviceStructureErrors data = Except.ok se →
      (validateBackupFile data).isValid = false ∧
        ("Incompatible backup format version: " ++ s ++ " (current: " ++
          BACKUP_FORMAT_VERSION ++ "). Major version mismatch.") ∈
          (validateBackupFile data).errors) ∧
    ((Json.getField data "version" = none ∨
        jsTruthy (Json.getField data "version") = false ∨
        ∃ s, Json.getField data "version" = some (.str s)) →
      ∀ v, Json.getField data "services" = some v → jsTruthy (some v) = true →
        jsIsArray (some v) = false →
        (validateBackupFile data).isValid = false ∧
          "Invalid data type for services: expected array" ∈
            (validateBackupFile data).errors) ∧
    ((validateBackupFile data).isValid = true ↔ (validateBackupFile data).errors = []) := by
  obtain ⟨fs, rfl⟩ := hobj
  refine ⟨?_, ?_, ?_, ?_⟩
  · intro hver harr hsvc
    have hvc : versionCheck (Json.obj fs) =
        .ok ([], ["Backup does not include version information (limited compatibility)"]) := by
      unfold versionCheck
      rw [if_neg (by rw [hver]; exact Bool.false_ne_true)]
    have hmiss : missingFieldErrors (Json.obj fs) = [] := by
      apply List.filterMap_eq_nil.mpr
      intro f hf
      simp [hreq f hf]
    have htype : typeErrors (Json.obj fs) = [] := by
      apply List.filterMap_eq_nil.mpr
      intro f hf
      rcases harr f hf with h | h
      · simp [h]
      · simp [h]
    simp [validateBackupFile, hvc, hsvc, hmiss, htype]
  · intro s maj mi pa se hs hparse hmaj hse
    have hsne : s ≠ "" := by
      intro h
      rw [h] at hparse
      cases hparse
    have hvc : versionCheck (Json.obj fs) =
        .ok (["Incompatible backup format version: " ++ s ++ " (current: " ++
          BACKUP_FORMAT_VERSION ++ "). Major version mismatch."], []) := by
      unfold versionCheck
      rw [hs, if_pos (by simp [jsTruthy, hsne])]
      dsimp only
      rw [hparse, show parseVersion BACKUP_FORMAT_VERSION = some (1, 0, 0) from rfl]
      dsimp only
      rw [if_pos hmaj]
    simp only [validateBackupFile, hvc, hse]
    rw [if_pos (by simp only [List.length_append, List.length_singleton]; omega)]
    exact ⟨rfl, by simp⟩
  · intro hver v hv htr hnarr
    rcases versionCheck_ok_of_not_throw (Json.obj fs) hver with ⟨⟨ve, vw⟩, hvc⟩
    have hsvc : serviceStructureErrors (Json.obj fs) = .ok [] := by
      unfold serviceStructureErrors
      rw [hv]
      cases v with
      | arr items => simp [jsIsArray] at hnarr
      | null => rfl
      | bool b => rfl
      | num n => rfl
      | str s => rfl
      | obj o => rfl
    have hmem : "Invalid data type for services: expected array" ∈
        typeErrors (Json.obj fs) := by
      apply List.mem_filterMap.mpr
      refine ⟨"services", by simp [arrayFields], ?_⟩
      rw [hv]
      simp [htr, hnarr]
    simp only [validateBackupFile, hvc, hsvc]
    rw [if_pos]
    · constructor
      · rfl
      · simp only [List.mem_append]
        exact Or.inl (Or.inr hmem)
    · have := List.length_pos.mpr (List.ne_nil_of_mem hmem)
      simp only [List.length_append]
      omega
  · cases hvc : versionCheck (Json.obj fs) with
    | error e => simp [validateBackupFile, hvc]
    | ok p =>
      obtain ⟨ve, vw⟩ := p
      cases hse : serviceStructureErrors (Json.obj fs) with
      | error e => simp [validateBackupFile, hvc, hse]
      | ok se =>
        by_cases hlen : 0 < (missingFieldErrors (Json.obj fs) ++ ve ++
            typeErrors (Json.obj fs) ++ se).length
        · simp only [validateBackupFile, hvc, hse]
          rw [if_pos hlen]
          constructor
          · intro hfalse
            exact absurd hfalse (by simp)
          · intro hnil
            dsimp only at hnil
            rw [hnil] at hlen
            simp at hlen
        · simp only [validateBackupFile, hvc, hse]
          rw [if_neg hlen]
          simp

/-- Counterexample to C5 as stated: `services` present as the falsy non-array
`0` (all required fields present, version current) is accepted as valid with
no errors — the source only flags truthy non-arrays, so "present but not an
array" does not always produce a type error. -/
theorem validateBackupFile_falsy_nonarray_counterexample :
    (validateBackupFile (Json.obj [("services", .num 0), ("team", .arr []),
      ("testimonials", .arr []), ("jobs", .arr []), ("users", .arr []),
      ("contacts", .arr []), ("newsletter", .arr []), ("applications", .arr []),
      ("exportedAt", .str "2024-01-01T00:00:00Z"),
      ("version", .str "1.0.0")])).isValid = true ∧
    (validateBackupFile (Json.obj [("services", .num 0), ("team", .arr []),
      ("testimonials", .arr []), ("jobs", .arr []), ("users", .arr []),
      ("contacts", .arr []), ("newsletter", .arr []), ("applications", .arr []),
      ("exportedAt", .str "2024-01-01T00:00:00Z"),
      ("version", .str "1.0.0")])).errors = [] := by
  constructor
  · rfl
  · rfl

/-- Witness for C5 (amended) at a concrete object: `services` present as the
truthy non-array `1` yields an invalid result carrying the type error. -/
theorem validateBackupFile_outcomes_witness :
    (validateBackupFile (Json.obj [("services", .num 1), ("team", .arr []),
      ("testimonials", .arr []), ("jobs", .arr []), ("users", .arr []),
      ("contacts", .arr []), ("newsletter", .arr []), ("applications", .arr []),
      ("exportedAt", .str "2024-01-01T00:00:00Z")])).isValid = false ∧
    "Invalid data type for services: expected array" ∈
      (validateBackupFile (Json.obj [("services", .num 1), ("team", .arr []),
        ("testimonials", .arr []), ("jobs", .arr []), ("users", .arr []),
        ("contacts", .arr []), ("newsletter", .arr []), ("applications", .arr []),
        ("exportedAt", .str "2024-01-01T00:00:00Z")])).errors := by
  exact (validateBackupFile_outcomes (Json.obj [("services", .num 1), ("team", .arr []),
      ("testimonials", .arr []), ("jobs", .arr []), ("users", .arr []),
      ("contacts", .arr []), ("newsletter", .arr []), ("applications", .arr []),
      ("exportedAt", .str "2024-01-01T00:00:00Z")])
    ⟨_, rfl⟩ (by decide)).2.2.1 (Or.inl rfl) (.num 1) rfl (by decide) (by decide)

/-! ## Legacy key migration (`database.ts` lines 43-50, 91-120) -/

/-- `LEGACY_KEY_MAPPINGS` (lines 45-50): legacy key → new centralized key. -/
def LEGACY_KEY_MAPPINGS : List (String × String) :=
  [("edgemakers_contacts", DB_KEYS_CONTACTS),
   ("edgemakers_newsletter", DB_KEYS_NEWSLETTER),
   ("edgemakers_job_applications", DB_KEYS_APPLICATIONS),
   ("edgemakers_user", DB_KEYS_USERS)]

/-- `newData && newData !== "[]" && newData !== "{}"` (line 103): the new key
already holds a non-empty value. -/
def newKeyOccupied : Option String → Bool
  | some newData =>
      decide (newData ≠ "") && decide (newData ≠ "[]") && decide (newData ≠ "\x7b\x7d")
  | none => false

/-- One iteration of the `LEGACY_KEY_MAPPINGS.forEach` body of
`migrateLegacyKeys` (lines 95-116) on a `localStorage` modelled as a
string-keyed insertion-ordered map (shared with the `JsMap` model). The host
JSON codec is a parameter: `parse` is `JSON.parse` with `none` for a thrown
`SyntaxError` (caught by the per-pair `catch`, leaving the store unchanged),
`stringify` is `JSON.stringify`. -/
def migrateLegacyPair (parse : String → Option Json) (stringify : Json → String)
    (st : List (String × String)) (pair : String × String) : List (String × String) :=
  match JsMap.get st pair.1 with
  | none => st
  | some legacyData =>
    if legacyData = "" then st
    else if newKeyOccupied (JsMap.get st pair.2) then st
    else
      match parse legacyData with
      | none => st
      | some parsedData =>
          (JsMap.set st pair.2 (stringify parsedData)).filter fun p => ¬ p.1 = pair.1

/-- The `forEach` over an arbitrary pair list. -/
def migrateLegacyKeysOn (parse : String → Option Json) (stringify : Json → String)
    (pairs : List (String × String)) (st : List (String × String)) :
    List (String × String) :=
  pairs.foldl (migrateLegacyPair parse stringify) st

/-- `migrateLegacyKeys` (lines 91-120) over the constant pair list. -/
def migrateLegacyKeys (parse : String → Option Json) (stringify : Json → String)
    (st : List (String × String)) : List (String × String) :=
  migrateLegacyKeysOn parse stringify LEGACY_KEY_MAPPINGS st

/-! ## Theorem for C8 -/

/-- C8: for every (oldKey, newKey) pair: a non-empty (and non-`[]`/non-`{}`)
value under newKey makes the pair a no-op (legacy data never overwrites it);
otherwise a present non-empty old value is parsed, its serialization written
under newKey, and the old key deleted; and a pair whose parse fails changes
nothing and does not abort migration of the remaining pairs. -/
theorem migrateLegacyPair_behavior (parse : String → Option Json)
    (stringify : Json → String) (st : List (String × String))
    (oldKey newKey : String) :
    (∀ s, JsMap.get st newKey = some s → s ≠ "" → s ≠ "[]" → s ≠ "\x7b\x7d" →
      migrateLegacyPair parse stringify st (oldKey, newKey) = st) ∧
    (∀ v j, JsMap.get st oldKey = some v → v ≠ "" →
      newKeyOccupied (JsMap.get st newKey) = false → parse v = some j →
      migrateLegacyPair parse stringify st (oldKey, newKey) =
        (JsMap.set st newKey (stringify j)).filter fun p => ¬ p.1 = oldKey) ∧
    (∀ v rest, JsMap.get st oldKey = some v → parse v = none →
      migrateLegacyKeysOn parse stringify ((oldKey, newKey) :: rest) st =
        migrateLegacyKeysOn parse stringify rest st) := by
  have hnoop : ∀ v, JsMap.get st oldKey = some v → parse v = none →
      migrateLegacyPair parse stringify st (oldKey, newKey) = st := by
    intro v hv hparse
    unfold migrateLegacyPair
    rw [hv]
    dsimp only
    by_cases hemp : v = ""
    · rw [if_pos hemp]
    · rw [if_neg hemp]
      by_cases hocc : newKeyOccupied (JsMap.get st newKey) = true
      · rw [if_pos hocc]
      · rw [if_neg hocc, hparse]
  refine ⟨?_, ?_, ?_⟩
  · intro s hs hs1 hs2 hs3
    unfold migrateLegacyPair
    cases hold : JsMap.get st oldKey with
    | none => rfl
    | some legacyData =>
      dsimp only
      by_cases hemp : legacyData = ""
      · rw [if_pos hemp]
      · rw [if_neg hemp, if_pos]
        simp [newKeyOccupied, hs, hs1, hs2, hs3]
  · intro v j hv hvne hocc hparse
    unfold migrateLegacyPair
    rw [hv]
    dsimp only
    rw [if_neg hvne, if_neg (by rw [hocc]; exact Bool.false_ne_true), hparse]
  · intro v rest hv hparse
    show List.foldl (migrateLegacyPair parse stringify)
      (migrateLegacyPair parse stringify st (oldKey, newKey)) rest =
      migrateLegacyKeysOn parse stringify rest st
    rw [hnoop v hv hparse]
    rfl

/-- Witness for C8: the three behaviors at concrete stores, with
`parse`/`stringify` a concrete codec. -/
theorem migrateLegacyPair_behavior_witness :
    (migrateLegacyPair (fun s => if s = "[1]" then some (Json.arr [Json.num 1]) else none)
      (fun _ => "[1]")
      [("edgemakers_contacts", "[1]"), ("edgemakers_db_contacts", "[9]")]
      ("edgemakers_contacts", "edgemakers_db_contacts") =
      [("edgemakers_contacts", "[1]"), ("edgemakers_db_contacts", "[9]")]) ∧
    (migrateLegacyPair (fun s => if s = "[1]" then some (Json.arr [Json.num 1]) else none)
      (fun _ => "[1]")
      [("edgemakers_contacts", "[1]")]
      ("edgemakers_contacts", "edgemakers_db_contacts") =
      (JsMap.set [("edgemakers_contacts", "[1]")] "edgemakers_db_contacts" "[1]").filter
        fun p => ¬ p.1 = "edgemakers_contacts") ∧
    (migrateLegacyKeysOn
      (fun s => if s = "[1]" then some (Json.arr [Json.num 1]) else none) (fun _ => "[1]")
      [("edgemakers_contacts", "edgemakers_db_contacts"),
       ("edgemakers_newsletter", "edgemakers_db_newsletter")]
      [("edgemakers_contacts", "bad json")] =
      migrateLegacyKeysOn
        (fun s => if s = "[1]" then some (Json.arr [Json.num 1]) else none) (fun _ => "[1]")
        [("edgemakers_newsletter", "edgemakers_db_newsletter")]
        [("edgemakers_contacts", "bad json")]) := by
  refine ⟨?_, ?_, ?_⟩
  · exact (migrateLegacyPair_behavior _ _ _ "edgemakers_contacts" "edgemakers_db_contacts").1
      "[9]" rfl (by decide) (by decide) (by decide)
  · exact (migrateLegacyPair_behavior _ _ _ "edgemakers_contacts" "edgemakers_db_contacts").2.1
      "[1]" (Json.arr [Json.num 1]) rfl (by decide) (by decide) rfl
  · exact (migrateLegacyPair_behavior _ _ _ "edgemakers_contacts" "edgemakers_db_contacts").2.2
      "bad json" _ rfl rfl

/-! ## Quota monitoring and `setItem` quota handling
(`database.ts` lines 122-157, 169-302) -/

/-- The fixed 5 MB quota assumption (lines 215, 285). -/
def QUOTA_BYTES : Nat := 5 * 1024 * 1024

/-- `WARNING_COOLDOWN` (line 156). -/
def WARNING_COOLDOWN : Int := 60000

/-- `getStorageUsagePercentage` (lines 283-293) as a function of the measured
usage: `(usage / quota) * 100`, `Math.round`ed to two decimal places. -/
def getStorageUsagePercentage (usageBytes : Nat) : ℚ :=
  (⌊(usageBytes : ℚ) / (QUOTA_BYTES : ℚ) * 100 * 100 + 1 / 2⌋ : ℚ) / 100

/-- Outcome of one host `localStorage.setItem` attempt. -/
inductive FirstWriteOutcome where
  | ok
  | quotaError
  | otherError
deriving DecidableEq, Repr

/-- The `storageInfo` payload of `StorageQuotaError` (lines 123-147). -/
structure StorageInfo where
  usagePercentage : ℚ
  usageBytes : Nat
  quotaBytes : Nat
deriving DecidableEq, Repr

/-- How a `Database.setItem` call ends. -/
inductive SetItemOutcome where
  | ok
  | threwQuota (info : StorageInfo)
  | rethrew
deriving DecidableEq, Repr

/-- Host-visible events of one `setItem` call, in order. -/
inductive SetItemEvent where
  | storageWarning
  | evictionRun
  | retryWrite
  | windowQuotaEvent
deriving DecidableEq, Repr

/-- Control flow of `Database.setItem` (lines 169-244), parameterized by the
host outcomes it branches on: `nearCapacity` is the `isStorageNearCapacity()`
pre-check, `firstWrite` the first `localStorage.setItem` outcome,
`cleanupSuccessful` the value `cleanupOldData` returns (that routine is
settled separately under C4), and `retrySucceeds` whether the retried write
succeeds — consulted only where the source actually retries. `storageSize` is
the `getStorageSize()` reading used for the error payload. Returns the
ordered events and the call's outcome (`threwQuota` = the structured
`StorageQuotaError` propagates). -/
def setItemQuotaFlow (now lastWarningTime : Int) (nearCapacity : Bool)
    (firstWrite : FirstWriteOutcome) (cleanupSuccessful retrySucceeds : Bool)
    (storageSize : Nat) : List SetItemEvent × SetItemOutcome :=
  let warnEvents := if nearCapacity ∧ now - lastWarningTime > WARNING_COOLDOWN then
    [SetItemEvent.storageWarning] else []
  match firstWrite with
  | .ok => (warnEvents, .ok)
  | .otherError => (warnEvents, .rethrew)
  | .quotaError =>
    if cleanupSuccessful then
      if retrySucceeds then
        (warnEvents ++ [.evictionRun, .retryWrite], .ok)
      else
        (warnEvents ++ [.evictionRun, .retryWrite, .windowQuotaEvent],
          .threwQuota ⟨getStorageUsagePercentage storageSize, storageSize, QUOTA_BYTES⟩)
    else
      (warnEvents ++ [.evictionRun, .windowQuotaEvent],
        .threwQuota ⟨getStorageUsagePercentage storageSize, storageSize, QUOTA_BYTES⟩)

/-! ## Theorems for C1 -/

/-- Counterexample to C1 as stated: when eviction reports insufficient space
(`cleanupSuccessful = false`), the source does NOT retry the write — even
though the retry would have succeeded (`retrySucceeds = true`), the call
throws the quota error without a retry attempt. -/
theorem setItem_no_retry_on_insufficient_eviction :
    SetItemEvent.retryWrite ∉
      (setItemQuotaFlow 0 (-100000) false .quotaError false true 1000).1 ∧
    (setItemQuotaFlow 0 (-100000) false .quotaError false true 1000).2 ≠
      SetItemOutcome.ok := by
  constructor
  · intro h
    simp [setItemQuotaFlow] at h
  · intro h
    simp [setItemQuotaFlow] at h

/-- C1 (amended): on a host quota failure, `setItem` runs eviction
synchronously; it retries the write once if and only if eviction reported
success; the call succeeds exactly when eviction succeeded and the retry
succeeded; in every other case it throws a `StorageQuotaError` carrying the
usage bytes, usage percentage and quota bytes, and the host-level window
event is the last thing dispatched before the error propagates. -/
theorem setItem_quotaFlow_spec (now lastWarningTime : Int) (nearCapacity : Bool)
    (cleanupSuccessful retrySucceeds : Bool) (storageSize : Nat) :
    SetItemEvent.evictionRun ∈
      (setItemQuotaFlow now lastWarningTime nearCapacity .quotaError
        cleanupSuccessful retrySucceeds storageSize).1 ∧
    (SetItemEvent.retryWrite ∈
      (setItemQuotaFlow now lastWarningTime nearCapacity .quotaError
        cleanupSuccessful retrySucceeds storageSize).1 ↔ cleanupSuccessful = true) ∧
    ((setItemQuotaFlow now lastWarningTime nearCapacity .quotaError
        cleanupSuccessful retrySucceeds storageSize).2 = SetItemOutcome.ok ↔
      (cleanupSuccessful = true ∧ retrySucceeds = true)) ∧
    (¬ (cleanupSuccessful = true ∧ retrySucceeds = true) →
      (setItemQuotaFlow now lastWarningTime nearCapacity .quotaError
          cleanupSuccessful retrySucceeds storageSize).2 =
        SetItemOutcome.threwQuota
          ⟨getStorageUsagePercentage storageSize, storageSize, QUOTA_BYTES⟩ ∧
      (setItemQuotaFlow now lastWarningTime nearCapacity .quotaError
          cleanupSuccessful retrySucceeds storageSize).1.getLast? =
        some SetItemEvent.windowQuotaEvent) := by
  unfold setItemQuotaFlow
  by_cases hw : (nearCapacity = true ∧ now - lastWarningTime > WARNING_COOLDOWN)
  · rw [if_pos hw]
    cases cleanupSuccessful <;> cases retrySucceeds <;> simp
  · rw [if_neg hw]
    cases cleanupSuccessful <;> cases retrySucceeds <;> simp

/-- Witness for C1 (amended) at concrete inputs. -/
theorem setItem_quotaFlow_spec_witness :
    SetItemEvent.evictionRun ∈
      (setItemQuotaFlow 5 0 false .quotaError false false 1000).1 ∧
    (SetItemEvent.retryWrite ∈
      (setItemQuotaFlow 5 0 false .quotaError false false 1000).1 ↔ false = true) ∧
    ((setItemQuotaFlow 5 0 false .quotaError false false 1000).2 = SetItemOutcome.ok ↔
      (false = true ∧ false = true)) ∧
    (¬ (false = true ∧ false = true) →
      (setItemQuotaFlow 5 0 false .quotaError false false 1000).2 =
        SetItemOutcome.threwQuota
          ⟨getStorageUsagePercentage 1000, 1000, QUOTA_BYTES⟩ ∧
      (setItemQuotaFlow 5 0 false .quotaError false false 1000).1.getLast? =
        some SetItemEvent.windowQuotaEvent) :=
  setItem_quotaFlow_spec 5 0 false false false 1000

/-! ## Storage size cache and eviction
(`database.ts` lines 150-157, 247-281, 304-392) -/

/-- The storage monitoring cache of `Database` (lines 151-155). -/
structure SizeCache where
  cachedStorageSize : Nat
  lastStorageCheckTime : Int
deriving DecidableEq, Repr

/-- `STORAGE_CHECK_COOLDOWN` (line 155): 10 seconds. -/
def STORAGE_CHECK_COOLDOWN : Int := 10000

/-- `Database.getStorageSize` (lines 247-281): returns the cached total when a
positive cached value is within the 10 s cooldown, otherwise measures the host
storage — `trueSize` stands for the summed `(key.length + value.length) * 2`
over every stored key at that moment — and caches the measurement. -/
def getStorageSize (trueSize : Nat) (now : Int) (c : SizeCache) : Nat × SizeCache :=
  if 0 < c.cachedStorageSize ∧ now - c.lastStorageCheckTime < STORAGE_CHECK_COOLDOWN then
    (c.cachedStorageSize, c)
  else
    (trueSize, ⟨trueSize, now⟩)

/-- `Math.ceil(length * 0.2)` (lines 331-333): for feasible collection sizes
this equals `⌈n/5⌉` — the double closest to `0.2` is slightly above `1/5`, so
the product can never round below an exact multiple. -/
def ceil20 (n : Nat) : Nat := (n + 4) / 5

/-- Result of `cleanupOldData`: the reported success flag, the three trimmed
collections it saved, and the cache state afterwards. -/
structure CleanupResult where
  success : Bool
  newContacts : List Contact
  newSubscribers : List NewsletterSubscriber
  newApplications : List JobApplication
  cache : SizeCache
deriving Repr

/-- `Database.cleanupOldData` (lines 304-392): measures the size before
(`getStorageSize` at time `t1`, true host size `trueSizeBefore`), sorts each
submission collection oldest-first by its own timestamp, drops the oldest 20%
of each and saves them, measures the size after (`getStorageSize` at `t2`,
true host size `trueSizeAfter`), and reports success iff the measured freed
bytes (`sizeBefore - sizeAfter`) are at least half of `bytesNeeded`. -/
def cleanupOldData (bytesNeeded : Nat) (c : SizeCache) (contacts : List Contact)
    (subscribers : List NewsletterSubscriber) (applications : List JobApplication)
    (t1 t2 : Int) (trueSizeBefore trueSizeAfter : Nat) : CleanupResult :=
  let r1 := getStorageSize trueSizeBefore t1 c
  let sizeBefore := r1.1
  let sortedContacts := contacts.mergeSort fun a b => a.submittedAt ≤ b.submittedAt
  let sortedSubscribers := subscribers.mergeSort fun a b => a.subscribedAt ≤ b.subscribedAt
  let sortedApplications := applications.mergeSort fun a b => a.submittedAt ≤ b.submittedAt
  let contactsToRemove := ceil20 sortedContacts.length
  let subscribersToRemove := ceil20 sortedSubscribers.length
  let applicationsToRemove := ceil20 sortedApplications.length
  let newContacts := sortedContacts.drop contactsToRemove
  let newSubscribers := sortedSubscribers.drop subscribersToRemove
  let newApplications := sortedApplications.drop applicationsToRemove
  let r2 := getStorageSize trueSizeAfter t2 r1.2
  let sizeAfter := r2.1
  let freedBytes : Int := (sizeBefore : Int) - (sizeAfter : Int)
  ⟨decide (2 * freedBytes ≥ (bytesNeeded : Int)), newContacts, newSubscribers,
    newApplications, r2.2⟩

/-! ## Theorem for C4 -/

/-- C4 (code bug): one invocation does trim each submission collection to at
most 80% of its length (the first half of the claim holds), but the success
condition is broken: whenever the pre-cleanup size is nonzero and the second
measurement falls within the 10-second cache cooldown of the first — which is
always the case in a real run, the cleanup takes milliseconds —
`getStorageSize` returns the cached pre-cleanup value, the measured freed
bytes are 0, and cleanup reports failure for every positive `bytesNeeded`,
regardless of how many bytes were actually freed (`trueSizeAfter` is
universally quantified here). This contradicts the source's own comment
`Success if freed at least 50% of needed space` (line 387). -/
theorem cleanupOldData_length_bound_and_broken_success (bytesNeeded : Nat)
    (c : SizeCache) (contacts : List Contact) (subscribers : List NewsletterSubscriber)
    (applications : List JobApplication) (t1 t2 : Int)
    (trueSizeBefore trueSizeAfter : Nat) (hc : c.cachedStorageSize = 0)
    (ht : t2 - t1 < STORAGE_CHECK_COOLDOWN) (hb : 0 < trueSizeBefore)
    (hn : 0 < bytesNeeded) :
    5 * (cleanupOldData bytesNeeded c contacts subscribers applications t1 t2
      trueSizeBefore trueSizeAfter).newContacts.length ≤ 4 * contacts.length ∧
    5 * (cleanupOldData bytesNeeded c contacts subscribers applications t1 t2
      trueSizeBefore trueSizeAfter).newSubscribers.length ≤ 4 * subscribers.length ∧
    5 * (cleanupOldData bytesNeeded c contacts subscribers applications t1 t2
      trueSizeBefore trueSizeAfter).newApplications.length ≤ 4 * applications.length ∧
    (cleanupOldData bytesNeeded c contacts subscribers applications t1 t2
      trueSizeBefore trueSizeAfter).success = false := by
  have h1 : getStorageSize trueSizeBefore t1 c = (trueSizeBefore, ⟨trueSizeBefore, t1⟩) := by
    unfold getStorageSize
    rw [if_neg]
    rintro ⟨h0, _⟩
    rw [hc] at h0
    exact lt_irrefl 0 h0
  have h2 : getStorageSize trueSizeAfter t2 ⟨trueSizeBefore, t1⟩ =
      (trueSizeBefore, ⟨trueSizeBefore, t1⟩) := by
    unfold getStorageSize
    rw [if_pos ⟨hb, by simpa using ht⟩]
  simp only [cleanupOldData, h1, h2]
  refine ⟨?_, ?_, ?_, ?_⟩
  · rw [List.length_drop, List.length_mergeSort]
    unfold ceil20
    omega
  · rw [List.length_drop, List.length_mergeSort]
    unfold ceil20
    omega
  · rw [List.length_drop, List.length_mergeSort]
    unfold ceil20
    omega
  · apply decide_eq_false
    intro hge
    omega

/-- Witness for C4: a concrete run — five contacts, a 5000-byte store before,
100 bytes after (4900 actual bytes freed, far above half of the 100 needed) —
still reports failure, while the collection is trimmed to four records. -/
theorem cleanupOldData_length_bound_and_broken_success_witness :
    5 * (cleanupOldData 100 ⟨0, 0⟩
      [⟨"c1", "A", "a@x", "1", "s", "m", 1, "new"⟩,
       ⟨"c2", "B", "b@x", "2", "s", "m", 2, "new"⟩,
       ⟨"c3", "C", "c@x", "3", "s", "m", 3, "new"⟩,
       ⟨"c4", "D", "d@x", "4", "s", "m", 4, "new"⟩,
       ⟨"c5", "E", "e@x", "5", "s", "m", 5, "new"⟩] [] [] 0 50 5000 100).newContacts.length ≤
      4 * ([⟨"c1", "A", "a@x", "1", "s", "m", 1, "new"⟩,
       ⟨"c2", "B", "b@x", "2", "s", "m", 2, "new"⟩,
       ⟨"c3", "C", "c@x", "3", "s", "m", 3, "new"⟩,
       ⟨"c4", "D", "d@x", "4", "s", "m", 4, "new"⟩,
       ⟨"c5", "E", "e@x", "5", "s", "m", 5, "new"⟩] : List Contact).length ∧
    (cleanupOldData 100 ⟨0, 0⟩
      [⟨"c1", "A", "a@x", "1", "s", "m", 1, "new"⟩,
       ⟨"c2", "B", "b@x", "2", "s", "m", 2, "new"⟩,
       ⟨"c3", "C", "c@x", "3", "s", "m", 3, "new"⟩,
       ⟨"c4", "D", "d@x", "4", "s", "m", 4, "new"⟩,
       ⟨"c5", "E", "e@x", "5", "s", "m", 5, "new"⟩] [] [] 0 50 5000 100).success = false := by
  have h := cleanupOldData_length_bound_and_broken_success 100 ⟨0, 0⟩
    [⟨"c1", "A", "a@x", "1", "s", "m", 1, "new"⟩,
     ⟨"c2", "B", "b@x", "2", "s", "m", 2, "new"⟩,
     ⟨"c3", "C", "c@x", "3", "s", "m", 3, "new"⟩,
     ⟨"c4", "D", "d@x", "4", "s", "m", 4, "new"⟩,
     ⟨"c5", "E", "e@x", "5", "s", "m", 5, "new"⟩] [] [] 0 50 5000 100
    rfl (by decide) (by decide) (by decide)
  exact ⟨h.1, h.2.2.2⟩
